import Mathlib

/-!
# go-ukify: PCR policy precomputation (`pkg/measure/pcr/bank_data.go`)

A shallow embedding of `CreateSelector`, `CalculatePolicy`, `CalculateBankData` and
`CalculateBankDataForFile`, together with the library functions they call.

Conventions of the embedding:

* a Go `[]byte` is a `List Nat` of values below 256; a Go `string` is a `String`, and
  `[]byte(s)` is its UTF-8 encoding (`stringBytes`);
* a Go `int` is an `Int`;
* a call returning `(T, error)` yields a `GoResult T`, which records whether an error came back,
  which value came back with it, and whether the call panicked instead;
* `slog` calls have no effect on the returned values and are left out.
-/

namespace GoUkify

/-! ## Go values -/

/-- Outcome of a Go call of result type `(T, error)`.
`ok v` is `return v, nil`; `fail v err` is a return with a non-nil error `err`, where
`v = none` stands for a `nil` first component; `panic msg` is a run-time panic. -/
inductive GoResult (α : Type) where
  | ok (val : α)
  | fail (val : Option α) (err : String)
  | panic (msg : String)
deriving DecidableEq, Repr

deriving instance DecidableEq for Except

/-- Big-endian bytes of `x`, exactly `n` of them (the value is truncated to `8 * n` bits, as a
Go conversion to the unsigned type of that width does). -/
def beBytes : Nat → Nat → List Nat
  | 0, _ => []
  | n + 1, x => (x >>> (8 * n)) % 256 :: beBytes n x

/-- Big-endian value of a byte string. -/
def beNat (bs : List Nat) : Nat := bs.foldl (fun acc b => acc * 256 + b % 256) 0

/-- Cut a byte string into `n` consecutive pieces of `size` bytes. -/
def chunks (size : Nat) : Nat → List Nat → List (List Nat)
  | 0, _ => []
  | n + 1, bs => bs.take size :: chunks size n (bs.drop size)

/-- UTF-8 encoding of one character. -/
def utf8Bytes (c : Char) : List Nat :=
  let v := c.toNat
  if v < 0x80 then [v]
  else if v < 0x800 then [0xC0 + v / 64, 0x80 + v % 64]
  else if v < 0x10000 then [0xE0 + v / 4096, 0x80 + v / 64 % 64, 0x80 + v % 64]
  else [0xF0 + v / 262144, 0x80 + v / 4096 % 64, 0x80 + v / 64 % 64, 0x80 + v % 64]

/-- Go `[]byte(s)`: the bytes of a string. -/
def stringBytes (s : String) : List Nat := s.data.flatMap utf8Bytes

/-! ## Hash functions (`crypto/sha1`, `crypto/sha256`, `crypto/sha512`), after FIPS 180-4 -/

namespace sha2

/-- Parameters that tell SHA-256, SHA-384 and SHA-512 apart: word size in bits, round
constants, initial hash value, number of output words, and the rotation amounts of the
four sigma functions. -/
structure Params where
  w : Nat
  K : List Nat
  H0 : List Nat
  outWords : Nat
  s0 : Nat × Nat × Nat
  s1 : Nat × Nat × Nat
  S0 : Nat × Nat × Nat
  S1 : Nat × Nat × Nat

/-- Rotate the `w`-bit word `x` right by `n`. -/
def rotr (w x n : Nat) : Nat := ((x >>> n) ||| (x <<< (w - n))) % 2 ^ w

/-- Addition modulo `2 ^ w`. -/
def add (w a b : Nat) : Nat := (a + b) % 2 ^ w

/-- The functions σ0 and σ1 of the message schedule: two rotations and a shift. -/
def smallSigma (w : Nat) (r : Nat × Nat × Nat) (x : Nat) : Nat :=
  rotr w x r.1 ^^^ rotr w x r.2.1 ^^^ (x >>> r.2.2)

/-- The functions Σ0 and Σ1 of the compression function: three rotations. -/
def bigSigma (w : Nat) (r : Nat × Nat × Nat) (x : Nat) : Nat :=
  rotr w x r.1 ^^^ rotr w x r.2.1 ^^^ rotr w x r.2.2

/-- The choice function `(e AND f) XOR (NOT e AND g)` on `w`-bit words. -/
def ch (w e f g : Nat) : Nat := (e &&& f) ^^^ ((e ^^^ (2 ^ w - 1)) &&& g)

/-- The majority function. -/
def maj (a b c : Nat) : Nat := (a &&& b) ^^^ (a &&& c) ^^^ (b &&& c)

/-- Message padding for word size `w`: a `0x80` byte, zero bytes up to the block boundary
less the length field, and the bit length on `w / 4` bytes. -/
def pad (w : Nat) (msg : List Nat) : List Nat :=
  let blk := 2 * w
  let lenBytes := w / 4
  let zeros := (2 * blk - 1 - lenBytes - msg.length % blk) % blk
  msg ++ 0x80 :: List.replicate zeros 0 ++ beBytes lenBytes (8 * msg.length)

/-- Message schedule beyond the first sixteen words; `win` holds the last sixteen words. -/
def expand (p : Params) : Nat → List Nat → List Nat
  | 0, _ => []
  | n + 1, win =>
    let x := add p.w (add p.w (add p.w (smallSigma p.w p.s1 (win.getD 14 0)) (win.getD 9 0))
      (smallSigma p.w p.s0 (win.getD 1 0))) (win.getD 0 0)
    x :: expand p n (win.drop 1 ++ [x])

/-- Message schedule of one block: its sixteen words, then the expanded ones. -/
def schedule (p : Params) (block : List Nat) : List Nat :=
  let w16 := (chunks (p.w / 8) 16 block).map beNat
  w16 ++ expand p (p.K.length - 16) w16

/-- One round of the compression function on the working variables `a` to `h`. -/
def round (p : Params) (st : List Nat) (kw : Nat × Nat) : List Nat :=
  match st with
  | [a, b, c, d, e, f, g, h] =>
    let t1 := add p.w (add p.w (add p.w (add p.w h (bigSigma p.w p.S1 e)) (ch p.w e f g)) kw.1) kw.2
    let t2 := add p.w (bigSigma p.w p.S0 a) (maj a b c)
    [add p.w t1 t2, a, b, c, add p.w d t1, e, f, g]
  | _ => st

/-- Compression of one block into the hash value `h`. -/
def compress (p : Params) (h : List Nat) (block : List Nat) : List Nat :=
  List.zipWith (add p.w) h ((p.K.zip (schedule p block)).foldl (round p) h)

/-- Digest of `msg`. -/
def sum (p : Params) (msg : List Nat) : List Nat :=
  let padded := pad p.w msg
  let hs := (chunks (2 * p.w) (padded.length / (2 * p.w)) padded).foldl (compress p) p.H0
  (hs.take p.outWords).flatMap (beBytes (p.w / 8))

/-- The words packed in `x`, `n` of them of `w` bits each, most significant first. -/
def beWords (w : Nat) : Nat → Nat → List Nat
  | 0, _ => []
  | n + 1, x => (x >>> (w * n)) % 2 ^ w :: beWords w n x

/-- Round constants of SHA-256 (FIPS 180-4, 4.2.2), eight 32-bit words per row. -/
def K256 : List Nat := List.flatMap [
   0x428a2f9871374491b5c0fbcfe9b5dba53956c25b59f111f1923f82a4ab1c5ed5,
   0xd807aa9812835b01243185be550c7dc372be5d7480deb1fe9bdc06a7c19bf174,
   0xe49b69c1efbe47860fc19dc6240ca1cc2de92c6f4a7484aa5cb0a9dc76f988da,
   0x983e5152a831c66db00327c8bf597fc7c6e00bf3d5a7914706ca635114292967,
   0x27b70a852e1b21384d2c6dfc53380d13650a7354766a0abb81c2c92e92722c85,
   0xa2bfe8a1a81a664bc24b8b70c76c51a3d192e819d6990624f40e3585106aa070,
   0x19a4c1161e376c082748774c34b0bcb5391c0cb34ed8aa4a5b9cca4f682e6ff3,
   0x748f82ee78a5636f84c878148cc7020890befffaa4506cebbef9a3f7c67178f2] (beWords 32 8)

/-- Round constants of SHA-384 and SHA-512 (FIPS 180-4, 4.2.3), four 64-bit words per row. -/
def K512 : List Nat := List.flatMap [
   0x428a2f98d728ae227137449123ef65cdb5c0fbcfec4d3b2fe9b5dba58189dbbc,
   0x3956c25bf348b53859f111f1b605d019923f82a4af194f9bab1c5ed5da6d8118,
   0xd807aa98a303024212835b0145706fbe243185be4ee4b28c550c7dc3d5ffb4e2,
   0x72be5d74f27b896f80deb1fe3b1696b19bdc06a725c71235c19bf174cf692694,
   0xe49b69c19ef14ad2efbe4786384f25e30fc19dc68b8cd5b5240ca1cc77ac9c65,
   0x2de92c6f592b02754a7484aa6ea6e4835cb0a9dcbd41fbd476f988da831153b5,
   0x983e5152ee66dfaba831c66d2db43210b00327c898fb213fbf597fc7beef0ee4,
   0xc6e00bf33da88fc2d5a79147930aa72506ca6351e003826f142929670a0e6e70,
   0x27b70a8546d22ffc2e1b21385c26c9264d2c6dfc5ac42aed53380d139d95b3df,
   0x650a73548baf63de766a0abb3c77b2a881c2c92e47edaee692722c851482353b,
   0xa2bfe8a14cf10364a81a664bbc423001c24b8b70d0f89791c76c51a30654be30,
   0xd192e819d6ef5218d69906245565a910f40e35855771202a106aa07032bbd1b8,
   0x19a4c116b8d2d0c81e376c085141ab532748774cdf8eeb9934b0bcb5e19b48a8,
   0x391c0cb3c5c95a634ed8aa4ae3418acb5b9cca4f7763e373682e6ff3d6b2b8a3,
   0x748f82ee5defb2fc78a5636f43172f6084c87814a1f0ab728cc702081a6439ec,
   0x90befffa23631e28a4506cebde82bde9bef9a3f7b2c67915c67178f2e372532b,
   0xca273eceea26619cd186b8c721c0c207eada7dd6cde0eb1ef57d4f7fee6ed178,
   0x06f067aa72176fba0a637dc5a2c898a6113f9804bef90dae1b710b35131c471b,
   0x28db77f523047d8432caab7b40c724933c9ebe0a15c9bebc431d67c49c100d4c,
   0x4cc5d4becb3e42b6597f299cfc657e2a5fcb6fab3ad6faec6c44198c4a475817] (beWords 64 4)

/-- SHA-256. -/
def p256 : Params where
  w := 32
  K := K256
  H0 := List.flatMap [
   0x6a09e667bb67ae853c6ef372a54ff53a510e527f9b05688c1f83d9ab5be0cd19] (beWords 32 8)
  outWords := 8
  s0 := (7, 18, 3)
  s1 := (17, 19, 10)
  S0 := (2, 13, 22)
  S1 := (6, 11, 25)

/-- SHA-512. -/
def p512 : Params where
  w := 64
  K := K512
  H0 := List.flatMap [
   0x6a09e667f3bcc908bb67ae8584caa73b3c6ef372fe94f82ba54ff53a5f1d36f1,
   0x510e527fade682d19b05688c2b3e6c1f1f83d9abfb41bd6b5be0cd19137e2179] (beWords 64 4)
  outWords := 8
  s0 := (1, 8, 7)
  s1 := (19, 61, 6)
  S0 := (28, 34, 39)
  S1 := (14, 18, 41)

/-- SHA-384: SHA-512 with another initial value, cut to six words. -/
def p384 : Params where
  w := 64
  K := K512
  H0 := List.flatMap [
   0xcbbb9d5dc1059ed8629a292a367cd5079159015a3070dd17152fecd8f70e5939,
   0x67332667ffc00b318eb44a8768581511db0c2e0d64f98fa747b5481dbefa4fa4] (beWords 64 4)
  outWords := 6
  s0 := (1, 8, 7)
  s1 := (19, 61, 6)
  S0 := (28, 34, 39)
  S1 := (14, 18, 41)

end sha2

namespace sha1

/-- Rotate the 32-bit word `x` left by `n`. -/
def rotl (x n : Nat) : Nat := ((x <<< n) ||| (x >>> (32 - n))) % 2 ^ 32

/-- Round function of SHA-1 at round `t`. -/
def f (t b c d : Nat) : Nat :=
  if t < 20 then sha2.ch 32 b c d
  else if t < 40 then b ^^^ c ^^^ d
  else if t < 60 then sha2.maj b c d
  else b ^^^ c ^^^ d

/-- Round constant of SHA-1 at round `t`. -/
def K (t : Nat) : Nat :=
  if t < 20 then 0x5a827999
  else if t < 40 then 0x6ed9eba1
  else if t < 60 then 0x8f1bbcdc
  else 0xca62c1d6

/-- Initial hash value of SHA-1. -/
def H0 : List Nat := [0x67452301, 0xefcdab89, 0x98badcfe, 0x10325476, 0xc3d2e1f0]

/-- Message schedule of SHA-1 beyond the first sixteen words. -/
def expand : Nat → List Nat → List Nat
  | 0, _ => []
  | n + 1, win =>
    let x := rotl (win.getD 13 0 ^^^ win.getD 8 0 ^^^ win.getD 2 0 ^^^ win.getD 0 0) 1
    x :: expand n (win.drop 1 ++ [x])

/-- Message schedule of one SHA-1 block. -/
def schedule (block : List Nat) : List Nat :=
  let w16 := (chunks 4 16 block).map beNat
  w16 ++ expand 64 w16

/-- One round of SHA-1 on the working variables `a` to `e`. -/
def round (st : List Nat) (tw : Nat × Nat) : List Nat :=
  match st with
  | [a, b, c, d, e] =>
    [(rotl a 5 + f tw.1 b c d + e + K tw.1 + tw.2) % 2 ^ 32, a, rotl b 30, c, d]
  | _ => st

/-- Compression of one SHA-1 block. -/
def compress (h : List Nat) (block : List Nat) : List Nat :=
  List.zipWith (sha2.add 32) h (((List.range 80).zip (schedule block)).foldl round h)

/-- SHA-1 digest of `msg`. -/
def sum (msg : List Nat) : List Nat :=
  let padded := sha2.pad 32 msg
  ((chunks 64 (padded.length / 64) padded).foldl compress H0).flatMap (beBytes 4)

end sha1

namespace sha256

/-- Go `sha256.Sum256`. -/
def Sum256 (data : List Nat) : List Nat := sha2.sum sha2.p256 data

end sha256

namespace crypto

/-- Go `crypto.Hash`, restricted to the four values `tpm2.TPMAlgID.Hash` can return. -/
inductive Hash where
  | SHA1
  | SHA256
  | SHA384
  | SHA512
deriving DecidableEq, Repr

/-- Go `crypto.Hash.Size`. -/
def Hash.Size : Hash → Nat
  | .SHA1 => 20
  | .SHA256 => 32
  | .SHA384 => 48
  | .SHA512 => 64

/-- The digest computed by `h.New()`, one `Write(data)` and `Sum(nil)`. -/
def Hash.Sum : Hash → List Nat → List Nat
  | .SHA1, data => sha1.sum data
  | .SHA256, data => sha2.sum sha2.p256 data
  | .SHA384, data => sha2.sum sha2.p384 data
  | .SHA512, data => sha2.sum sha2.p512 data

end crypto

/-! ## Encodings (`encoding/hex`, `encoding/base64`, `crypto/x509`) -/

namespace hex

/-- Lower-case hexadecimal digit of a value below 16. -/
def digit (n : Nat) : Char := if n < 10 then Char.ofNat (48 + n) else Char.ofNat (87 + n)

/-- Go `hex.EncodeToString`: two lower-case hexadecimal digits per byte. -/
def EncodeToString (bs : List Nat) : String :=
  String.mk (bs.flatMap fun b => [digit (b / 16 % 16), digit (b % 16)])

end hex

namespace base64

/-- The standard base64 alphabet. -/
def alphabet : List Char :=
  "ABCDEFGHIJKLMNOPQRSTUVWXYZabcdefghijklmnopqrstuvwxyz0123456789+/".data

/-- Character of a 6-bit value. -/
def char (n : Nat) : Char := alphabet.getD n '='

/-- Three bytes become four characters; a last group of one or two bytes is padded. -/
def encode : List Nat → List Char
  | a :: b :: c :: rest =>
    char (a / 4 % 64) :: char (a % 4 * 16 + b / 16 % 16) :: char (b % 16 * 4 + c / 64 % 4)
      :: char (c % 64) :: encode rest
  | [a, b] => [char (a / 4 % 64), char (a % 4 * 16 + b / 16 % 16), char (b % 16 * 4), '=']
  | [a] => [char (a / 4 % 64), char (a % 4 * 16), '=', '=']
  | [] => []

/-- Go `base64.StdEncoding.EncodeToString`. -/
def EncodeToString (bs : List Nat) : String := String.mk (encode bs)

end base64

namespace rsa

/-- Go `rsa.PublicKey`: modulus and public exponent. -/
structure PublicKey where
  N : Nat
  E : Nat
deriving DecidableEq, Repr

end rsa

namespace asn1

/-- Base-256 digits of `x`, most significant first, pushed in front of `acc`; `fuel` bounds the
number of digits. -/
def natBytesAux : Nat → Nat → List Nat → List Nat
  | 0, _, acc => acc
  | fuel + 1, x, acc => if x = 0 then acc else natBytesAux fuel (x / 256) (x % 256 :: acc)

/-- Minimal big-endian bytes of `n` (none for zero). -/
def natBytes (n : Nat) : List Nat := natBytesAux n n []

/-- DER length octets: short form below 128, long form otherwise. -/
def length (n : Nat) : List Nat :=
  if n < 128 then [n]
  else
    let bs := natBytes n
    (0x80 + bs.length) :: bs

/-- DER encoding of a non-negative INTEGER: minimal big-endian content octets, with a leading
zero octet when the top bit would otherwise be set. -/
def integer (n : Nat) : List Nat :=
  let body := if n = 0 then [0] else natBytes n
  let body := if 128 ≤ body.headD 0 then 0 :: body else body
  0x02 :: length body.length ++ body

end asn1

namespace x509

/-- Go `x509.MarshalPKCS1PublicKey`: the DER encoding of
`RSAPublicKey ::= SEQUENCE { modulus INTEGER, publicExponent INTEGER }`. -/
def MarshalPKCS1PublicKey (key : rsa.PublicKey) : List Nat :=
  let body := asn1.integer key.N ++ asn1.integer key.E
  0x30 :: asn1.length body.length ++ body

end x509

/-! ## go-tpm (`github.com/google/go-tpm/tpm2`) -/

namespace tpm2

/-- Go `tpm2.TPMAlgID` (a `uint16`). -/
abbrev TPMAlgID := Nat

/-- TPM_ALG_SHA1. -/
def TPMAlgSHA1 : TPMAlgID := 0x0004

/-- TPM_ALG_SHA256. -/
def TPMAlgSHA256 : TPMAlgID := 0x000B

/-- TPM_ALG_SHA384. -/
def TPMAlgSHA384 : TPMAlgID := 0x000C

/-- TPM_ALG_SHA512. -/
def TPMAlgSHA512 : TPMAlgID := 0x000D

/-- Go `TPMAlgID.Hash`: the `crypto.Hash` of a hash algorithm identifier, an error for every
other identifier (Go returns `crypto.SHA256` next to that error). -/
def TPMAlgID.Hash (a : TPMAlgID) : GoResult crypto.Hash :=
  if a = TPMAlgSHA1 then .ok .SHA1
  else if a = TPMAlgSHA256 then .ok .SHA256
  else if a = TPMAlgSHA384 then .ok .SHA384
  else if a = TPMAlgSHA512 then .ok .SHA512
  else .fail (some .SHA256) ("unsupported hash algorithm: " ++ toString a)

/-- Go `tpm2.TPMSPCRSelection`. -/
structure TPMSPCRSelection where
  Hash : TPMAlgID
  PCRSelect : List Nat
deriving DecidableEq, Repr

/-- Go `tpm2.TPMLPCRSelection`. -/
structure TPMLPCRSelection where
  PCRSelections : List TPMSPCRSelection
deriving DecidableEq, Repr

/-- Command code of `TPM2_PolicyPCR`. -/
def TPMCCPolicyPCR : Nat := 0x0000017F

/-- Go `tpm2.Marshal` on a `TPMLPCRSelection`, the TPM wire format: the number of selections
as a `uint32`, then for each selection the algorithm identifier as a `uint16`, the size of the
mask as a `uint8`, and the mask bytes. -/
def Marshal (sel : TPMLPCRSelection) : List Nat :=
  beBytes 4 sel.PCRSelections.length ++
    sel.PCRSelections.flatMap fun s => beBytes 2 s.Hash ++ beBytes 1 s.PCRSelect.length ++ s.PCRSelect

/-- Go `tpm2.PolicyCalculator`: a policy digest calculated without a TPM. -/
structure PolicyCalculator where
  alg : TPMAlgID
  hash : crypto.Hash
  state : List Nat
deriving DecidableEq, Repr

/-- Go `tpm2.NewPolicyCalculator`: the state starts as `hash.Size()` zero bytes. -/
def NewPolicyCalculator (alg : TPMAlgID) : GoResult PolicyCalculator :=
  match TPMAlgID.Hash alg with
  | .ok hash => .ok { alg := alg, hash := hash, state := List.replicate hash.Size 0 }
  | .fail _ err => .fail none err
  | .panic msg => .panic msg

/-- Go `PolicyCalculator.Reset`: the state goes back to all zero bytes. -/
def PolicyCalculator.Reset (p : PolicyCalculator) : PolicyCalculator :=
  { p with state := List.replicate p.hash.Size 0 }

/-- Go `PolicyCalculator.Update`: the new state is the hash of the current state followed by
the big-endian serialization of each item of `data` (given here already serialized). Writing
integers and byte slices does not fail. -/
def PolicyCalculator.Update (p : PolicyCalculator) (data : List (List Nat)) :
    GoResult PolicyCalculator :=
  .ok { p with state := p.hash.Sum (p.state ++ data.flatten) }

/-- Go `tpm2.TPMTHA`. -/
structure TPMTHA where
  HashAlg : TPMAlgID
  Digest : List Nat
deriving DecidableEq, Repr

/-- Go `PolicyCalculator.Hash`: a copy of the current state. -/
def PolicyCalculator.Hash (p : PolicyCalculator) : TPMTHA :=
  { HashAlg := p.alg, Digest := p.state }

/-- Go `tpm2.TPM2BDigest`. -/
structure TPM2BDigest where
  Buffer : List Nat
deriving DecidableEq, Repr

/-- Go `tpm2.PolicyPCR`. -/
structure PolicyPCR where
  PcrDigest : TPM2BDigest
  Pcrs : TPMLPCRSelection
deriving DecidableEq, Repr

/-- Go `PolicyPCR.Update`:
`policy.Update(TPMCCPolicyPCR, Marshal(cmd.Pcrs), cmd.PcrDigest.Buffer)`. -/
def PolicyPCR.Update (cmd : PolicyPCR) (policy : PolicyCalculator) : GoResult PolicyCalculator :=
  policy.Update [beBytes 4 TPMCCPolicyPCR, Marshal cmd.Pcrs, cmd.PcrDigest.Buffer]

end tpm2

/-! ## Packages `constants` and `types`, and the environment -/

namespace types

/-- Go `types.PhaseInfo`: a boot phase label and whether a signature is calculated at it. -/
structure PhaseInfo where
  Phase : String
  CalculateSignature : Bool
deriving DecidableEq, Repr

/-- Go `types.BankData`: one signed policy record. -/
structure BankData where
  PCRs : List Int
  PKFP : String
  Sig : String
  Pol : String
deriving DecidableEq, Repr

end types

/-- Everything `bank_data.go` reads that is declared outside `src/`, taken as a parameter:
the constant `constants.UKIPCR`, the lists returned by `constants.OrderedSections()` and
`types.OrderedPhases()`, and the file system as seen by `os.ReadFile` (content or error for
each path, the same throughout a call). A `constants.Section` is a Go string. -/
structure Env where
  UKIPCR : Nat
  OrderedSections : List String
  OrderedPhases : List types.PhaseInfo
  ReadFile : String → Except String (List Nat)

/-- Go `RSAKey`: a `crypto.Signer` that also hands out its RSA public key. `Sign digest hash`
is the signature of `digest` under the scheme of `hash`, or the error of the key
operation; RSA signing with PKCS#1 v1.5 padding is deterministic, so the operation is a
function of its arguments. -/
structure RSAKey where
  Sign : List Nat → crypto.Hash → Except String (List Nat)
  PublicRSAKey : rsa.PublicKey

/-- Go map indexing `m[k]` on a `map[constants.Section]string`, the map given by its
key/value pairs in some order: the value stored under `k`, the empty string when there is
none. -/
def mapIndex (m : List (String × String)) (k : String) : String :=
  (m.lookup k).getD ""

/-! ## Package `pcr`: digest accumulator and signing -/

/-- Modelled from the spec: the type `Digest` is declared outside `src/`. "DigestState: owned
by one Digest Accumulator instance; mutable byte buffer of exactly `HashAlgorithm.size`
bytes", kept here with the hash algorithm it belongs to. -/
structure Digest where
  alg : crypto.Hash
  hash : List Nat
deriving DecidableEq, Repr

/-- Modelled from the spec: `NewDigest` is declared outside `src/`. "`new(algorithm)` →
accumulator initialized to `algorithm.size` zero bytes." -/
def NewDigest (alg : crypto.Hash) : Digest :=
  { alg := alg, hash := List.replicate alg.Size 0 }

/-- Modelled from the spec: `Digest.Hash` is declared outside `src/`. "`snapshot()` returns
the current state without resetting it." -/
def Digest.Hash (d : Digest) : List Nat := d.hash

/-- Modelled from the spec: `Digest.Extend` is declared outside `src/`. The spec names the
update "`state ← H(state || data)`", the TPM `PCR_Extend`. Read with `data` as the raw bytes
passed in, this contradicts the golden vectors that `pcr_test.go`, under `src/`, asserts
(lines 43-46, checked at lines 112-115, 152-155 and 227-251); they are met when the bytes
enter the hash as their digest, `state ← H(state || H(bytes))`, which is how a TPM extends a
PCR with a measurement (`golden_vectors_need_hashed_extend` below evaluates both readings).
The value the test "Extends the hash properly" names as precalculated for `Extend("Hello")`
on a fresh SHA-256 digest (line 268) is likewise the one of the hashed form
(`Extend_Hello_sha256`).
The code under `src/` being the authority, the update the tests pin down is the one embedded
here; `Digest.ExtendRaw` is the reading on raw bytes. -/
def Digest.Extend (d : Digest) (data : List Nat) : Digest :=
  { d with hash := d.alg.Sum (d.hash ++ d.alg.Sum data) }

/-- Literal reading of the spec sentence on `extend`: the raw bytes are appended to the state
and the result is hashed. Not used by the embedding of `bank_data.go`. -/
def Digest.ExtendRaw (d : Digest) (data : List Nat) : Digest :=
  { d with hash := d.alg.Sum (d.hash ++ data) }

/-- Go `pcr.Signature`: hex-encoded digest and base64-encoded signature. -/
structure Signature where
  Digest : String
  SignatureBase64 : String
deriving DecidableEq, Repr

/-- Modelled from the spec: `Sign` is declared outside `src/`. "`sign(digest,
hashAlgorithm)` → signature bytes (base64-encoded for transport) plus the hex-encoded digest
that was signed. Fails with a `SigningError` if the underlying key operation fails." -/
def Sign (digest : List Nat) (hash : crypto.Hash) (key : RSAKey) : GoResult Signature :=
  match key.Sign digest hash with
  | .error err => .fail none err
  | .ok signedData =>
    .ok { Digest := hex.EncodeToString digest,
          SignatureBase64 := base64.EncodeToString signedData }

/-! ## `bank_data.go` -/

/-- The constant `sizeOfPCRSelect` of `CreateSelector`. -/
def sizeOfPCRSelect : Nat := 3

/-- The loop of `CreateSelector` over the remaining indices, `mask` being the mask so far.
Indexing `mask[n>>3]` panics when `n>>3` is not an index of the mask. -/
def CreateSelector.loop : List Int → List Nat → GoResult (List Nat)
  | [], mask => .ok mask
  | n :: rest, mask =>
    if n ≥ 8 * sizeOfPCRSelect then
      .fail none ("PCR index " ++ toString n ++ " is out of range (exceeds maximum value "
        ++ toString (8 * sizeOfPCRSelect - 1) ++ ")")
    else
      let i := n >>> 3
      if 0 ≤ i ∧ i < mask.length then
        CreateSelector.loop rest
          (mask.set i.toNat ((mask.getD i.toNat 0 ||| 1 <<< (Int.land n 0x7).toNat) % 256))
      else
        .panic ("runtime error: index out of range [" ++ toString i ++ "]")

/-- CreateSelector converts PCR numbers into a bitmask. -/
def CreateSelector (pcrs : List Int) : GoResult (List Nat) :=
  CreateSelector.loop pcrs (List.replicate sizeOfPCRSelect 0)

/-- CalculatePolicy calculates the policy hash for a given PCR value and PCR selection. -/
def CalculatePolicy (pcrValue : List Nat) (pcrSelection : tpm2.TPMLPCRSelection) :
    GoResult (List Nat) :=
  match tpm2.NewPolicyCalculator tpm2.TPMAlgSHA256 with
  | .panic msg => .panic msg
  | .fail _ err => .fail none err
  | .ok calculator =>
    let calculator := calculator.Reset
    let pcrHash := sha256.Sum256 pcrValue
    let policy : tpm2.PolicyPCR := { PcrDigest := { Buffer := pcrHash }, Pcrs := pcrSelection }
    match policy.Update calculator with
    | .panic msg => .panic msg
    | .fail _ err => .fail none err
    | .ok calculator => .ok calculator.Hash.Digest

/-- The loop of `CalculateBankData` over the remaining canonical sections, `hashData` being
the accumulator so far: `.ok` is the accumulator when the loop is left at its end,
`.error r` is a `return r` from inside the loop. -/
def CalculateBankData.sectionLoop (env : Env) (sectionData : List (String × String)) :
    List String → Digest → Except (GoResult (List types.BankData)) Digest
  | [], hashData => .ok hashData
  | sec :: rest, hashData =>
    let file := mapIndex sectionData sec
    if file ≠ "" then
      match env.ReadFile file with
      | .error err => .error (.fail none err)
      | .ok sectionD =>
        let hashData := hashData.Extend (stringBytes sec ++ [0])
        let hashData := hashData.Extend sectionD
        CalculateBankData.sectionLoop env sectionData rest hashData
    else
      CalculateBankData.sectionLoop env sectionData rest hashData

/-- The loop of `CalculateBankData` over the remaining phases, followed by the final
`return banks, nil`; `hashData` and `banks` are the accumulator and the entries so far. -/
def CalculateBankData.phaseLoop (pcrNumber : Int) (hashAlg : crypto.Hash)
    (pcrSelection : tpm2.TPMLPCRSelection) (rsaKey : RSAKey) (pubKeyFingerprint : List Nat) :
    List types.PhaseInfo → Digest → List types.BankData → GoResult (List types.BankData)
  | [], _, banks => .ok banks
  | phaseInfo :: rest, hashData, banks =>
    let hashData := hashData.Extend (stringBytes phaseInfo.Phase)
    if !phaseInfo.CalculateSignature then
      CalculateBankData.phaseLoop pcrNumber hashAlg pcrSelection rsaKey pubKeyFingerprint
        rest hashData banks
    else
      let hash := hashData.Hash
      match CalculatePolicy hash pcrSelection with
      | .panic msg => .panic msg
      | .fail _ err => .fail none err
      | .ok policyPCR =>
        match Sign policyPCR hashAlg rsaKey with
        | .panic msg => .panic msg
        | .fail _ err => .fail none err
        | .ok sigData =>
          CalculateBankData.phaseLoop pcrNumber hashAlg pcrSelection rsaKey pubKeyFingerprint
            rest hashData
            (banks ++ [{ PCRs := [pcrNumber],
                         PKFP := hex.EncodeToString pubKeyFingerprint,
                         Sig := sigData.SignatureBase64,
                         Pol := sigData.Digest }])

/-- CalculateBankData calculates the PCR bank data for a given set of UKI file sections. -/
def CalculateBankData (env : Env) (pcrNumber : Int) (alg : tpm2.TPMAlgID)
    (sectionData : List (String × String)) (rsaKey : RSAKey) :
    GoResult (List types.BankData) :=
  let pubKeyFingerprint := sha256.Sum256 (x509.MarshalPKCS1PublicKey rsaKey.PublicRSAKey)
  match tpm2.TPMAlgID.Hash alg with
  | .panic msg => .panic msg
  | .fail _ err => .fail none err
  | .ok hashAlg =>
    match CreateSelector [(env.UKIPCR : Int)] with
    | .panic msg => .panic msg
    | .fail _ err => .fail none ("failed to create PCR selection: " ++ err)
    | .ok pcrSelector =>
      let pcrSelection : tpm2.TPMLPCRSelection :=
        { PCRSelections := [{ Hash := alg, PCRSelect := pcrSelector }] }
      let hashData := NewDigest hashAlg
      match CalculateBankData.sectionLoop env sectionData env.OrderedSections hashData with
      | .error r => r
      | .ok hashData =>
        CalculateBankData.phaseLoop pcrNumber hashAlg pcrSelection rsaKey pubKeyFingerprint
          env.OrderedPhases hashData []

/-- CalculateBankDataForFile: the bank data of a single file, measured as a whole. -/
def CalculateBankDataForFile (env : Env) (pcrNumber : Int) (alg : tpm2.TPMAlgID)
    (file : String) (rsaKey : RSAKey) : GoResult (List types.BankData) :=
  let pubKeyFingerprint := sha256.Sum256 (x509.MarshalPKCS1PublicKey rsaKey.PublicRSAKey)
  match tpm2.TPMAlgID.Hash alg with
  | .panic msg => .panic msg
  | .fail _ err => .fail none err
  | .ok hashAlg =>
    match CreateSelector [(env.UKIPCR : Int)] with
    | .panic msg => .panic msg
    | .fail _ err => .fail none ("failed to create PCR selection: " ++ err)
    | .ok pcrSelector =>
      let pcrSelection : tpm2.TPMLPCRSelection :=
        { PCRSelections := [{ Hash := alg, PCRSelect := pcrSelector }] }
      let hashData := NewDigest hashAlg
      match env.ReadFile file with
      | .error err => .fail none err
      | .ok sectionData =>
        let hashData := hashData.Extend sectionData
        let banks : List types.BankData := []
        let hash := hashData.Hash
        match CalculatePolicy hash pcrSelection with
        | .panic msg => .panic msg
        | .fail _ err => .fail none err
        | .ok policyPCR =>
          match Sign policyPCR hashAlg rsaKey with
          | .panic msg => .panic msg
          | .fail _ err => .fail none err
          | .ok sigData =>
            .ok (banks ++ [{ PCRs := [pcrNumber],
                             PKFP := hex.EncodeToString pubKeyFingerprint,
                             Sig := sigData.SignatureBase64,
                             Pol := sigData.Digest }])

/-! ## Concrete inputs used by the closed statements -/

/-- The four phases of the golden-vector tests, each one a signing checkpoint. -/
def goldenPhases : List types.PhaseInfo :=
  [⟨"enter-initrd", true⟩, ⟨"leave-initrd", true⟩, ⟨"sysinit", true⟩, ⟨"ready", true⟩]

/-- An environment with `UKIPCR = 11`, the canonical section names of a UKI, the four phases
of the golden-vector tests, and two files, `/tmp/cmdline` and `/tmp/uname`. -/
def goldenEnv : Env where
  UKIPCR := 11
  OrderedSections := [".linux", ".osrel", ".cmdline", ".initrd", ".splash", ".dtb", ".uname",
    ".sbat", ".pcrsig", ".pcrpkey"]
  OrderedPhases := goldenPhases
  ReadFile := fun path =>
    if path = "/tmp/cmdline" then .ok (stringBytes "root=LABEL=BOOT")
    else if path = "/tmp/uname" then .ok (stringBytes "6.5.0")
    else .error ("open " ++ path ++ ": no such file or directory")

/-- A stand-in signer with a small public key; the signature of a digest is the digest. -/
def fakeKey : RSAKey where
  Sign := fun digest _ => .ok digest
  PublicRSAKey := { N := 3233, E := 17 }

/-- A phase list in which the second phase is not a signing checkpoint. -/
def mixedPhases : List types.PhaseInfo :=
  [⟨"enter-initrd", true⟩, ⟨"leave-initrd", false⟩, ⟨"sysinit", true⟩]

/-- The environment `goldenEnv` with the phase list `mixedPhases`. -/
def mixedEnv : Env := { goldenEnv with OrderedPhases := mixedPhases }

/-- Content of the two files of `goldenEnv`, by section name. -/
def goldenContent (sec : String) : List Nat :=
  if sec = ".cmdline" then stringBytes "root=LABEL=BOOT" else stringBytes "6.5.0"

/-- The bank list of `mixedEnv` for PCR number 11, SHA-256, no section and `fakeKey`. -/
def mixedBanks : List types.BankData :=
  [{ PCRs := [11],
     PKFP := "bfb32bfec1972879359a37298c4a16c570a280ba90cc30d512ba69de6dae9c99",
     Sig := "fISG9hzB2Ioo1quHhQvuB8RnzmMRNAIZ5Dp6bmUh5UM=",
     Pol := "7c8486f61cc1d88a28d6ab87850bee07c467ce6311340219e43a7a6e6521e543" },
   { PCRs := [11],
     PKFP := "bfb32bfec1972879359a37298c4a16c570a280ba90cc30d512ba69de6dae9c99",
     Sig := "j6x5DBJcxsgrNycUyOz4N4RSPAXFt4s3sargVSG37D4=",
     Pol := "8fac790c125cc6c82b372714c8ecf83784523c05c5b78b37b1aae05521b7ec3e" }]

/-- The bank list of the file `/tmp/cmdline` of `goldenEnv` for PCR number 7, SHA-384 and
`fakeKey`. -/
def cmdlineFileBanks : List types.BankData :=
  [{ PCRs := [7],
     PKFP := "bfb32bfec1972879359a37298c4a16c570a280ba90cc30d512ba69de6dae9c99",
     Sig := "au3KZsVjvgk85GjZEJg+J2Ic3K4SVs98VeQFdf8GMYk=",
     Pol := "6aedca66c563be093ce468d910983e27621cdcae1256cf7c55e40575ff063189" }]

/-- The golden policy digests of `pcr_test.go`, one per phase. -/
def knownPCR11PolicyHashes : List String :=
  ["7c8486f61cc1d88a28d6ab87850bee07c467ce6311340219e43a7a6e6521e543",
   "7474e6080ddc5355c6087db4272c7d8a6871a7c83a54694369561253f08fd3f1",
   "8fac790c125cc6c82b372714c8ecf83784523c05c5b78b37b1aae05521b7ec3e",
   "53f5e6ee03093e2fb1ea9d1351952a33ce381ae93bef210abb764941be8d8ec6"]

/-- The policy digests of a result, in order; none when the call did not succeed. -/
def pols : GoResult (List types.BankData) → Option (List String)
  | .ok banks => some (banks.map fun b => b.Pol)
  | _ => none

/-! ## Specification-side definitions -/

/-- Bit `n & 7` of byte `n >> 3` of a selector mask. -/
def selectorBit (mask : List Nat) (n : Nat) : Bool :=
  (mask.getD (n >>> 3) 0).testBit (n &&& 7)

/-- The policy digest as the spec words it (4.3): SHA-256 over the all-zero 32-byte prior
policy digest, the command code of `PolicyPCR`, the wire encoding of the PCR selection, and
the SHA-256 digest of the PCR value. -/
def specPolicyDigest (pcrValue : List Nat) (pcrSelection : tpm2.TPMLPCRSelection) : List Nat :=
  sha256.Sum256 (List.replicate 32 0 ++ [0x00, 0x00, 0x01, 0x7F] ++ tpm2.Marshal pcrSelection
    ++ sha256.Sum256 pcrValue)

/-- The accumulator `d` after one `Extend` per label, in the order of the list. -/
def extendLabels (d : Digest) (labels : List String) : Digest :=
  labels.foldl (fun acc label => acc.Extend (stringBytes label)) d

/-- Section measurement as the spec words it (4.5, `measureSections`): a fresh accumulator,
folded from the left over the section names in the given order; a section present in the map
extends it with its name followed by one NUL byte and then with its content, an absent
section leaves it as it is. -/
def specMeasureSections (hashAlg : crypto.Hash) (names : List String)
    (sectionData : List (String × String)) (content : String → List Nat) : Digest :=
  names.foldl
    (fun acc sec =>
      if mapIndex sectionData sec ≠ "" then
        (acc.Extend (stringBytes sec ++ [0])).Extend (content sec)
      else acc)
    (NewDigest hashAlg)

/-- Whether a non-empty list of phases ends in a signing checkpoint. -/
def endsInCheckpoint (phases : List types.PhaseInfo) : Bool :=
  match phases.getLast? with
  | some p => p.CalculateSignature
  | none => false

/-- The hex-encoded policy digests of the phase walk as the spec words it: one for each
prefix of the phase list that ends in a checkpoint, in order of increasing length, computed
on the accumulator `d` extended with the label of every phase of that prefix. -/
def checkpointPolicies (pcrSelection : tpm2.TPMLPCRSelection) (d : Digest)
    (phases : List types.PhaseInfo) : List String :=
  (phases.inits.filter endsInCheckpoint).map fun pre =>
    hex.EncodeToString
      (specPolicyDigest (extendLabels d (pre.map fun p => p.Phase)).Hash pcrSelection)

/-- The hex encoding of a returned policy digest; none when the call did not succeed. -/
def policyHex : GoResult (List Nat) → Option String
  | .ok digest => some (hex.EncodeToString digest)
  | _ => none

/-- The PCR selection of the test "Generates the proper signed policy": SHA-256 bank, the
selector of PCR 11. -/
def pcr11Selection : tpm2.TPMLPCRSelection :=
  { PCRSelections := [{ Hash := tpm2.TPMAlgSHA256, PCRSelect := [0, 8, 0] }] }

/-! ## `CreateSelector` -/

theorem selectorBit_set (mask : List Nat) (m n : Nat) (hm : m >>> 3 < mask.length) :
    selectorBit (mask.set (m >>> 3) ((mask.getD (m >>> 3) 0 ||| 1 <<< (m &&& 7)) % 256)) n
      = (selectorBit mask n || decide (n = m)) := by
  have h7 : ∀ k : Nat, k &&& 7 = k % 8 := fun k => Nat.and_pow_two_sub_one_eq_mod k 3
  have h3 : ∀ k : Nat, k >>> 3 = k / 8 := fun k => Nat.shiftRight_eq_div_pow k 3
  unfold selectorBit
  simp only [List.getD_eq_getElem?_getD, List.getElem?_set, h7, h3] at hm ⊢
  have e256 : (256 : Nat) = 2 ^ 8 := by norm_num
  by_cases hq : m / 8 = n / 8
  · have hlt : n % 8 < 8 := Nat.mod_lt _ (by norm_num)
    have hiff : (m % 8 = n % 8) ↔ n = m := by omega
    simp only [hq, if_true]
    rw [hq] at hm
    simp only [hm, if_true, Option.getD_some, e256, Nat.testBit_mod_two_pow, Nat.testBit_or,
      Nat.one_shiftLeft, Nat.testBit_two_pow, hlt, decide_True, Bool.true_and]
    congr 1
    exact decide_eq_decide.mpr hiff
  · have hne : ¬ n = m := fun h => hq (by rw [h])
    simp [hq, hne]

theorem CreateSelector.loop_cons_valid (m : Nat) (rest : List Int) (mask : List Nat)
    (hm : m < 24) (hlen : mask.length = 3) :
    CreateSelector.loop ((m : Int) :: rest) mask =
      CreateSelector.loop rest
        (mask.set (m >>> 3) ((mask.getD (m >>> 3) 0 ||| 1 <<< (m &&& 7)) % 256)) := by
  have hs : (m : Int) >>> 3 = ((m >>> 3 : Nat) : Int) := rfl
  have hl : Int.land (m : Int) 0x7 = ((m &&& 7 : Nat) : Int) := rfl
  have h3 : m >>> 3 < 3 := by rw [Nat.shiftRight_eq_div_pow]; omega
  have hge : ¬ ((m : Int) ≥ 8 * (sizeOfPCRSelect : Int)) := by
    simp only [sizeOfPCRSelect]; omega
  have hidx : (0 : Int) ≤ ((m >>> 3 : Nat) : Int) ∧ ((m >>> 3 : Nat) : Int) < (mask.length : Int) := by
    rw [hlen]; omega
  rw [CreateSelector.loop]
  simp only [hge, if_false, hs, hl, hidx, and_self, if_true, Int.toNat_ofNat]

theorem selectorBit_zero (n : Nat) : selectorBit (List.replicate sizeOfPCRSelect 0) n = false := by
  rcases h : n >>> 3 with _ | _ | _ | k <;>
    simp [selectorBit, sizeOfPCRSelect, h, List.replicate]

theorem CreateSelector.loop_valid (pcrs : List Int) :
    ∀ mask : List Nat, mask.length = 3 → (∀ b ∈ mask, b < 256) → (∀ n ∈ pcrs, 0 ≤ n ∧ n < 24) →
      ∃ out, CreateSelector.loop pcrs mask = .ok out ∧ out.length = 3 ∧ (∀ b ∈ out, b < 256) ∧
        ∀ n : Nat, selectorBit out n = (selectorBit mask n || decide ((n : Int) ∈ pcrs)) := by
  induction pcrs with
  | nil =>
    intro mask hlen hb _
    exact ⟨mask, rfl, hlen, hb, fun n => by simp⟩
  | cons k rest ih =>
    intro mask hlen hb hall
    obtain ⟨hk0, hk24⟩ := hall k (List.mem_cons_self _ _)
    obtain ⟨m, rfl⟩ := Int.eq_ofNat_of_zero_le hk0
    have hm : m < 24 := by omega
    have h3 : m >>> 3 < mask.length := by rw [hlen, Nat.shiftRight_eq_div_pow]; omega
    obtain ⟨out, hout, hlen2, hb2, hbits⟩ :=
      ih (mask.set (m >>> 3) ((mask.getD (m >>> 3) 0 ||| 1 <<< (m &&& 7)) % 256))
        (by rw [List.length_set]; exact hlen)
        (fun b hmem => by
          rcases List.mem_or_eq_of_mem_set hmem with h | h
          · exact hb b h
          · rw [h]; exact Nat.mod_lt _ (by norm_num))
        (fun n hn => hall n (List.mem_cons_of_mem _ hn))
    refine ⟨out, ?_, hlen2, hb2, fun n => ?_⟩
    · rw [CreateSelector.loop_cons_valid m rest mask hm hlen]; exact hout
    · rw [hbits n, selectorBit_set mask m n h3]
      simp only [List.mem_cons, Nat.cast_inj, Bool.or_assoc, Bool.decide_or]

theorem byte_ext (a b : Nat) (ha : a < 256) (hb : b < 256)
    (h : ∀ i < 8, a.testBit i = b.testBit i) : a = b := by
  apply Nat.eq_of_testBit_eq
  intro i
  by_cases hi : i < 8
  · exact h i hi
  · have h256 : 256 ≤ 2 ^ i := by
      calc 256 = 2 ^ 8 := by norm_num
        _ ≤ 2 ^ i := Nat.pow_le_pow_right (by norm_num) (by omega)
    rw [Nat.testBit_lt_two_pow (by omega), Nat.testBit_lt_two_pow (by omega)]

theorem mask_ext (m1 m2 : List Nat) (h1 : m1.length = 3) (h2 : m2.length = 3)
    (hb1 : ∀ b ∈ m1, b < 256) (hb2 : ∀ b ∈ m2, b < 256)
    (h : ∀ n < 24, selectorBit m1 n = selectorBit m2 n) : m1 = m2 := by
  match m1, h1, m2, h2 with
  | [a, b, c], _, [x, y, z], _ =>
    have e0 : a = x := byte_ext a x (hb1 a (by simp)) (hb2 x (by simp)) (fun i hi => by
      have := h i (by omega)
      have hq : i >>> 3 = 0 := by rw [Nat.shiftRight_eq_div_pow]; omega
      have hr : i &&& 7 = i := by rw [Nat.and_pow_two_sub_one_eq_mod i 3]; omega
      simpa [selectorBit, hq, hr] using this)
    have e1 : b = y := byte_ext b y (hb1 b (by simp)) (hb2 y (by simp)) (fun i hi => by
      have := h (8 + i) (by omega)
      have hq : (8 + i) >>> 3 = 1 := by rw [Nat.shiftRight_eq_div_pow]; omega
      have hr : (8 + i) &&& 7 = i := by rw [Nat.and_pow_two_sub_one_eq_mod (8 + i) 3]; omega
      simpa [selectorBit, hq, hr] using this)
    have e2 : c = z := byte_ext c z (hb1 c (by simp)) (hb2 z (by simp)) (fun i hi => by
      have := h (16 + i) (by omega)
      have hq : (16 + i) >>> 3 = 2 := by rw [Nat.shiftRight_eq_div_pow]; omega
      have hr : (16 + i) &&& 7 = i := by rw [Nat.and_pow_two_sub_one_eq_mod (16 + i) 3]; omega
      simpa [selectorBit, hq, hr] using this)
    rw [e0, e1, e2]

theorem CreateSelector_valid (pcrs : List Int) (h : ∀ n ∈ pcrs, 0 ≤ n ∧ n < 24) :
    ∃ mask, CreateSelector pcrs = .ok mask ∧ mask.length = 3 ∧ (∀ b ∈ mask, b < 256) ∧
      ∀ n : Nat, n < 24 → (selectorBit mask n = true ↔ (n : Int) ∈ pcrs) := by
  obtain ⟨out, hout, hlen, hb, hbits⟩ :=
    CreateSelector.loop_valid pcrs (List.replicate sizeOfPCRSelect 0) (by simp [sizeOfPCRSelect])
      (fun b hmem => by rw [(List.mem_replicate.mp hmem).2]; norm_num) h
  refine ⟨out, hout, hlen, hb, fun n _ => ?_⟩
  rw [hbits n, selectorBit_zero]
  simp

theorem CreateSelector.loop_out_of_range (pcrs : List Int) :
    ∀ mask : List Nat, mask.length = 3 → (∀ n ∈ pcrs, 0 ≤ n) → (∃ n ∈ pcrs, 24 ≤ n) →
      ∃ msg, CreateSelector.loop pcrs mask = .fail none msg := by
  induction pcrs with
  | nil =>
    intro mask _ _ hex
    obtain ⟨n, hn, _⟩ := hex
    cases hn
  | cons k rest ih =>
    intro mask hlen hnonneg hex
    by_cases hk : 24 ≤ k
    · have hge : k ≥ 8 * (sizeOfPCRSelect : Int) := by simp only [sizeOfPCRSelect]; omega
      exact ⟨_, by rw [CreateSelector.loop]; simp only [hge, if_true]; rfl⟩
    · obtain ⟨m, rfl⟩ := Int.eq_ofNat_of_zero_le (hnonneg k (List.mem_cons_self _ _))
      have hm : m < 24 := by omega
      rw [CreateSelector.loop_cons_valid m rest mask hm hlen]
      apply ih _ (by rw [List.length_set]; exact hlen)
        (fun n hn => hnonneg n (List.mem_cons_of_mem _ hn))
      obtain ⟨n, hn, h24⟩ := hex
      rcases List.mem_cons.mp hn with rfl | hn
      · exact absurd h24 hk
      · exact ⟨n, hn, h24⟩

/-- C2. For every list of PCR indices all in 0..23, `CreateSelector` returns no error and a
mask of exactly three bytes in which bit `n & 7` of byte `n >> 3` is set if and only if `n`
occurs in the list; hence a list with the same members, whatever their order and
multiplicity, gives the same result. -/
theorem CreateSelector_bit_layout (pcrs : List Int) (h : ∀ n ∈ pcrs, 0 ≤ n ∧ n < 24) :
    (∃ mask, CreateSelector pcrs = .ok mask ∧ mask.length = 3 ∧ (∀ b ∈ mask, b < 256) ∧
      ∀ n : Nat, n < 24 → (selectorBit mask n = true ↔ (n : Int) ∈ pcrs)) ∧
    ∀ other : List Int, (∀ n, n ∈ other ↔ n ∈ pcrs) → CreateSelector other = CreateSelector pcrs := by
  refine ⟨CreateSelector_valid pcrs h, fun other hsame => ?_⟩
  obtain ⟨m1, e1, l1, b1, s1⟩ := CreateSelector_valid pcrs h
  obtain ⟨m2, e2, l2, b2, s2⟩ :=
    CreateSelector_valid other (fun n hn => h n ((hsame n).mp hn))
  rw [e1, e2, mask_ext m2 m1 l2 l1 b2 b1 (fun n hn => by
    rw [Bool.eq_iff_iff, s2 n hn, s1 n hn]; exact hsame n)]

/-- The masks asserted by the test "Returns expected mask", and C2 at the list `[1, 2]`. -/
theorem CreateSelector_bit_layout_witness :
    CreateSelector [0] = .ok [1, 0, 0] ∧ CreateSelector [1] = .ok [2, 0, 0] ∧
    CreateSelector [1, 2] = .ok [6, 0, 0] ∧ CreateSelector [3] = .ok [8, 0, 0] ∧
    (∀ n ∈ ([1, 2] : List Int), 0 ≤ n ∧ n < 24) ∧
    (∃ mask, CreateSelector [1, 2] = .ok mask ∧ mask.length = 3 ∧ (∀ b ∈ mask, b < 256) ∧
      ∀ n : Nat, n < 24 → (selectorBit mask n = true ↔ (n : Int) ∈ ([1, 2] : List Int))) ∧
    ∀ other : List Int, (∀ n, n ∈ other ↔ n ∈ ([1, 2] : List Int)) →
      CreateSelector other = CreateSelector [1, 2] :=
  ⟨by decide, by decide, by decide, by decide, by decide,
    CreateSelector_bit_layout [1, 2] (by decide)⟩

theorem CreateSelector.loop_out_of_range_after (n : Int) (post : List Int) (hn : 24 ≤ n)
    (pre : List Int) :
    ∀ mask : List Nat, mask.length = 3 → (∀ k ∈ pre, 0 ≤ k) →
      ∃ msg, CreateSelector.loop (pre ++ n :: post) mask = .fail none msg := by
  induction pre with
  | nil =>
    intro mask _ _
    have hge : n ≥ 8 * (sizeOfPCRSelect : Int) := by simp only [sizeOfPCRSelect]; omega
    exact ⟨_, by rw [List.nil_append, CreateSelector.loop]; simp only [hge, if_true]; rfl⟩
  | cons k pre ih =>
    intro mask hlen hnonneg
    rw [List.cons_append]
    by_cases hk : 24 ≤ k
    · have hge : k ≥ 8 * (sizeOfPCRSelect : Int) := by simp only [sizeOfPCRSelect]; omega
      exact ⟨_, by rw [CreateSelector.loop]; simp only [hge, if_true]; rfl⟩
    · obtain ⟨m, rfl⟩ := Int.eq_ofNat_of_zero_le (hnonneg k (List.mem_cons_self _ _))
      rw [CreateSelector.loop_cons_valid m (pre ++ n :: post) mask (by omega) hlen]
      exact ih _ (by rw [List.length_set]; exact hlen)
        (fun j hj => hnonneg j (List.mem_cons_of_mem _ hj))

/-- C3 (the code at the failing input). On `[-1, 24]` `CreateSelector` returns no error: the
index `-1` passes the range check and the write `mask[-1]` panics before the index 24 is
looked at. The list `[24]` of the test, and `[1, 24, -1]`, give the error and a `nil` mask;
so does every list in which no negative index stands before an index of 24 or more,
whatever follows it. -/
theorem CreateSelector_out_of_range_after_negative :
    CreateSelector [-1, 24] = .panic "runtime error: index out of range [-1]" ∧
    CreateSelector [24] =
      .fail none "PCR index 24 is out of range (exceeds maximum value 23)" ∧
    CreateSelector [1, 24, -1] =
      .fail none "PCR index 24 is out of range (exceeds maximum value 23)" ∧
    ∀ (pre : List Int) (n : Int) (post : List Int), (∀ k ∈ pre, 0 ≤ k) → 24 ≤ n →
      ∃ msg, CreateSelector (pre ++ n :: post) = .fail none msg :=
  ⟨by decide, by decide, by decide, fun pre n post hpre hn =>
    CreateSelector.loop_out_of_range_after n post hn pre _ (by simp [sizeOfPCRSelect]) hpre⟩

/-! ## Digest sizes -/

theorem beBytes_length (n x : Nat) : (beBytes n x).length = n := by
  induction n with
  | zero => rfl
  | succ k ih => simp [beBytes, ih]

theorem beBytes_lt (n x : Nat) : ∀ b ∈ beBytes n x, b < 256 := by
  induction n with
  | zero => intro b hb; cases hb
  | succ k ih =>
    intro b hb
    rw [beBytes, List.mem_cons] at hb
    rcases hb with rfl | hb
    · exact Nat.mod_lt _ (by norm_num)
    · exact ih b hb

theorem flatMap_beBytes_length (k : Nat) (l : List Nat) :
    (l.flatMap (beBytes k)).length = l.length * k := by
  induction l with
  | nil => simp
  | cons a t ih =>
    rw [List.flatMap_cons, List.length_append, ih, beBytes_length, List.length_cons]
    ring

theorem flatMap_beBytes_lt (k : Nat) (l : List Nat) : ∀ b ∈ l.flatMap (beBytes k), b < 256 := by
  intro b hb
  obtain ⟨x, _, hx⟩ := List.mem_flatMap.mp hb
  exact beBytes_lt k x b hx

theorem sha2_round_length (p : sha2.Params) (st : List Nat) (kw : Nat × Nat) :
    (sha2.round p st kw).length = st.length := by
  unfold sha2.round
  split <;> rfl

theorem sha2_foldl_round_length (p : sha2.Params) (kws : List (Nat × Nat)) :
    ∀ st : List Nat, (kws.foldl (sha2.round p) st).length = st.length := by
  induction kws with
  | nil => intro st; rfl
  | cons kw t ih => intro st; rw [List.foldl_cons, ih, sha2_round_length]

theorem sha2_compress_length (p : sha2.Params) (h block : List Nat) :
    (sha2.compress p h block).length = h.length := by
  unfold sha2.compress
  rw [List.length_zipWith, sha2_foldl_round_length, Nat.min_self]

theorem sha2_foldl_compress_length (p : sha2.Params) (blocks : List (List Nat)) :
    ∀ h : List Nat, (blocks.foldl (sha2.compress p) h).length = h.length := by
  induction blocks with
  | nil => intro h; rfl
  | cons b t ih => intro h; rw [List.foldl_cons, ih, sha2_compress_length]

theorem sha2_sum_length (p : sha2.Params) (msg : List Nat) (hout : p.outWords ≤ p.H0.length) :
    (sha2.sum p msg).length = p.outWords * (p.w / 8) := by
  unfold sha2.sum
  simp only [flatMap_beBytes_length, List.length_take, sha2_foldl_compress_length]
  rw [Nat.min_eq_left hout]

theorem sha2_sum_lt (p : sha2.Params) (msg : List Nat) : ∀ b ∈ sha2.sum p msg, b < 256 := by
  unfold sha2.sum
  exact flatMap_beBytes_lt _ _

theorem sha1_round_length (st : List Nat) (tw : Nat × Nat) :
    (sha1.round st tw).length = st.length := by
  unfold sha1.round
  split <;> rfl

theorem sha1_foldl_round_length (tws : List (Nat × Nat)) :
    ∀ st : List Nat, (tws.foldl sha1.round st).length = st.length := by
  induction tws with
  | nil => intro st; rfl
  | cons tw t ih => intro st; rw [List.foldl_cons, ih, sha1_round_length]

theorem sha1_compress_length (h block : List Nat) : (sha1.compress h block).length = h.length := by
  unfold sha1.compress
  rw [List.length_zipWith, sha1_foldl_round_length, Nat.min_self]

theorem sha1_foldl_compress_length (blocks : List (List Nat)) :
    ∀ h : List Nat, (blocks.foldl sha1.compress h).length = h.length := by
  induction blocks with
  | nil => intro h; rfl
  | cons b t ih => intro h; rw [List.foldl_cons, ih, sha1_compress_length]

theorem sha1_sum_length (msg : List Nat) : (sha1.sum msg).length = 20 := by
  unfold sha1.sum
  simp only [flatMap_beBytes_length, sha1_foldl_compress_length]
  rfl

theorem sha256_Sum256_length (data : List Nat) : (sha256.Sum256 data).length = 32 :=
  sha2_sum_length sha2.p256 data (by decide)

theorem sha256_Sum256_lt (data : List Nat) : ∀ b ∈ sha256.Sum256 data, b < 256 :=
  sha2_sum_lt sha2.p256 data

theorem crypto_Hash_Sum_length (h : crypto.Hash) (data : List Nat) :
    (h.Sum data).length = h.Size := by
  cases h
  · exact sha1_sum_length data
  · exact sha2_sum_length sha2.p256 data (by decide)
  · exact sha2_sum_length sha2.p384 data (by decide)
  · exact sha2_sum_length sha2.p512 data (by decide)

theorem hex_EncodeToString_length (bs : List Nat) :
    (hex.EncodeToString bs).length = 2 * bs.length := by
  unfold hex.EncodeToString
  rw [String.length]
  induction bs with
  | nil => rfl
  | cons a t ih => rw [List.flatMap_cons, List.length_append, ih]; simp; ring

/-! ## `CalculatePolicy` -/

theorem CalculatePolicy_ok (pcrValue : List Nat) (pcrSelection : tpm2.TPMLPCRSelection) :
    CalculatePolicy pcrValue pcrSelection = .ok (specPolicyDigest pcrValue pcrSelection) := by
  have hnew : tpm2.NewPolicyCalculator tpm2.TPMAlgSHA256 =
      .ok { alg := tpm2.TPMAlgSHA256, hash := .SHA256, state := List.replicate 32 0 } := by
    decide
  have hcc : beBytes 4 tpm2.TPMCCPolicyPCR = [0x00, 0x00, 0x01, 0x7F] := by decide
  unfold CalculatePolicy
  rw [hnew]
  simp only [tpm2.PolicyPCR.Update, tpm2.PolicyCalculator.Update, tpm2.PolicyCalculator.Reset,
    tpm2.PolicyCalculator.Hash, hcc, crypto.Hash.Sum, crypto.Hash.Size, specPolicyDigest,
    sha256.Sum256, List.flatten, List.append_nil, List.append_assoc]

/-- C4. For every PCR value and every PCR selection, `CalculatePolicy` returns, with no
error, SHA-256 over 32 zero bytes, the command code of `PolicyPCR`, the wire encoding of the
selection and the SHA-256 digest of the PCR value; the result has 32 bytes whatever the
length of the PCR value. -/
theorem CalculatePolicy_reference (pcrValue : List Nat) (pcrSelection : tpm2.TPMLPCRSelection) :
    ∃ digest, CalculatePolicy pcrValue pcrSelection = .ok digest ∧
      digest = sha256.Sum256 (List.replicate 32 0 ++ [0x00, 0x00, 0x01, 0x7F]
        ++ tpm2.Marshal pcrSelection ++ sha256.Sum256 pcrValue) ∧
      digest.length = 32 ∧ ∀ b ∈ digest, b < 256 :=
  ⟨_, CalculatePolicy_ok pcrValue pcrSelection, rfl, sha256_Sum256_length _, sha256_Sum256_lt _⟩

/-! ## `CalculateBankData`: the section loop -/

theorem mapIndex_nil (sec : String) : mapIndex [] sec = "" := rfl

theorem CalculateBankData.sectionLoop_spec (env : Env) (sectionData : List (String × String))
    (content : String → List Nat) (names : List String)
    (hread : ∀ sec ∈ names, mapIndex sectionData sec ≠ "" →
      env.ReadFile (mapIndex sectionData sec) = .ok (content sec)) :
    ∀ d : Digest, CalculateBankData.sectionLoop env sectionData names d =
      .ok (names.foldl
        (fun acc sec =>
          if mapIndex sectionData sec ≠ "" then
            (acc.Extend (stringBytes sec ++ [0])).Extend (content sec)
          else acc) d) := by
  induction names with
  | nil => intro d; rfl
  | cons sec rest ih =>
    intro d
    have ih2 := ih (fun x hx => hread x (List.mem_cons_of_mem _ hx))
    rw [CalculateBankData.sectionLoop, List.foldl_cons]
    by_cases hp : mapIndex sectionData sec ≠ ""
    · rw [if_pos hp, if_pos hp, hread sec (List.mem_cons_self _ _) hp]
      exact ih2 _
    · rw [if_neg hp, if_neg hp]
      exact ih2 _

theorem CalculateBankData.sectionLoop_error (env : Env) (sectionData : List (String × String))
    (names : List String) :
    ∀ (d : Digest) (r : GoResult (List types.BankData)),
      CalculateBankData.sectionLoop env sectionData names d = .error r →
      ∃ sec ∈ names, ∃ err, mapIndex sectionData sec ≠ "" ∧
        env.ReadFile (mapIndex sectionData sec) = .error err ∧ r = .fail none err := by
  induction names with
  | nil => intro d r h; cases h
  | cons sec rest ih =>
    intro d r h
    rw [CalculateBankData.sectionLoop] at h
    by_cases hp : mapIndex sectionData sec ≠ ""
    · rw [if_pos hp] at h
      rcases hr : env.ReadFile (mapIndex sectionData sec) with err | data
      · rw [hr] at h
        injection h with h
        exact ⟨sec, List.mem_cons_self _ _, err, hp, hr, h.symm⟩
      · rw [hr] at h
        obtain ⟨x, hx, e, h1, h2, h3⟩ := ih _ r h
        exact ⟨x, List.mem_cons_of_mem _ hx, e, h1, h2, h3⟩
    · rw [if_neg hp] at h
      obtain ⟨x, hx, e, h1, h2, h3⟩ := ih _ r h
      exact ⟨x, List.mem_cons_of_mem _ hx, e, h1, h2, h3⟩

theorem CalculateBankData.sectionLoop_congr (env : Env) (m1 m2 : List (String × String))
    (names : List String) (h : ∀ sec ∈ names, mapIndex m1 sec = mapIndex m2 sec) :
    ∀ d : Digest, CalculateBankData.sectionLoop env m1 names d =
      CalculateBankData.sectionLoop env m2 names d := by
  induction names with
  | nil => intro d; rfl
  | cons sec rest ih =>
    intro d
    have ih2 := ih (fun x hx => h x (List.mem_cons_of_mem _ hx))
    rw [CalculateBankData.sectionLoop, CalculateBankData.sectionLoop,
      h sec (List.mem_cons_self _ _)]
    by_cases hp : mapIndex m2 sec ≠ ""
    · rw [if_pos hp, if_pos hp]
      rcases env.ReadFile (mapIndex m2 sec) with e | data
      · rfl
      · exact ih2 _
    · rw [if_neg hp, if_neg hp]
      exact ih2 _

/-! ## `CalculateBankData`: the phase loop -/

theorem endsInCheckpoint_nil : endsInCheckpoint [] = false := rfl

theorem endsInCheckpoint_singleton (p : types.PhaseInfo) :
    endsInCheckpoint [p] = p.CalculateSignature := rfl

theorem endsInCheckpoint_cons_cons (p r : types.PhaseInfo) (t : List types.PhaseInfo) :
    endsInCheckpoint (p :: r :: t) = endsInCheckpoint (r :: t) := by
  unfold endsInCheckpoint
  rw [List.getLast?_cons_cons]

theorem filter_endsInCheckpoint_cons (p : types.PhaseInfo) (l : List types.PhaseInfo) :
    (l.inits.map fun t => p :: t).filter endsInCheckpoint =
      (if p.CalculateSignature then [[p]] else []) ++
        (l.inits.filter endsInCheckpoint).map fun t => p :: t := by
  cases l with
  | nil =>
    cases hp : p.CalculateSignature <;>
      simp [List.inits, endsInCheckpoint_singleton, endsInCheckpoint_nil, hp]
  | cons r t =>
    rw [List.inits_cons, List.map_cons, List.filter_cons, List.filter_cons,
      endsInCheckpoint_singleton, endsInCheckpoint_nil]
    have hrest : (List.map (fun t => p :: t) (List.map (fun u => r :: u) t.inits)).filter
          endsInCheckpoint =
        ((List.map (fun u => r :: u) t.inits).filter endsInCheckpoint).map fun t => p :: t := by
      rw [List.filter_map]
      congr 1
      apply List.filter_congr
      intro x hx
      obtain ⟨u, _, rfl⟩ := List.mem_map.mp hx
      exact endsInCheckpoint_cons_cons p r u
    rw [hrest]
    cases hp : p.CalculateSignature <;> simp

theorem checkpointPolicies_nil (sel : tpm2.TPMLPCRSelection) (d : Digest) :
    checkpointPolicies sel d [] = [] := rfl

theorem checkpointPolicies_cons (sel : tpm2.TPMLPCRSelection) (d : Digest)
    (p : types.PhaseInfo) (rest : List types.PhaseInfo) :
    checkpointPolicies sel d (p :: rest) =
      (if p.CalculateSignature then
        [hex.EncodeToString (specPolicyDigest (d.Extend (stringBytes p.Phase)).Hash sel)]
      else []) ++ checkpointPolicies sel (d.Extend (stringBytes p.Phase)) rest := by
  unfold checkpointPolicies
  rw [List.inits_cons, List.filter_cons, endsInCheckpoint_nil, filter_endsInCheckpoint_cons]
  cases hp : p.CalculateSignature <;>
    simp [extendLabels, List.map_map, Function.comp_def]

theorem checkpointPolicies_length (sel : tpm2.TPMLPCRSelection) (phases : List types.PhaseInfo) :
    ∀ d : Digest, (checkpointPolicies sel d phases).length =
      (phases.filter fun p => p.CalculateSignature).length := by
  induction phases with
  | nil => intro d; rfl
  | cons p rest ih =>
    intro d
    rw [checkpointPolicies_cons, List.length_append, ih, List.filter_cons]
    cases hp : p.CalculateSignature <;> simp [Nat.add_comm]

theorem Sign_ok_of (digest signedData : List Nat) (hash : crypto.Hash) (key : RSAKey)
    (h : key.Sign digest hash = .ok signedData) :
    Sign digest hash key = .ok { Digest := hex.EncodeToString digest,
                                 SignatureBase64 := base64.EncodeToString signedData } := by
  unfold Sign; rw [h]

theorem Sign_fail_of (digest : List Nat) (err : String) (hash : crypto.Hash) (key : RSAKey)
    (h : key.Sign digest hash = .error err) : Sign digest hash key = .fail none err := by
  unfold Sign; rw [h]

/-- One iteration of the phase loop, by the outcome of the key operation. -/
theorem CalculateBankData.phaseLoop_cons (pcrNumber : Int) (hashAlg : crypto.Hash)
    (sel : tpm2.TPMLPCRSelection) (key : RSAKey) (fp : List Nat) (p : types.PhaseInfo)
    (rest : List types.PhaseInfo) (d : Digest) (banks : List types.BankData) :
    CalculateBankData.phaseLoop pcrNumber hashAlg sel key fp (p :: rest) d banks =
      if p.CalculateSignature = false then
        CalculateBankData.phaseLoop pcrNumber hashAlg sel key fp rest
          (d.Extend (stringBytes p.Phase)) banks
      else
        match key.Sign (specPolicyDigest (d.Extend (stringBytes p.Phase)).Hash sel) hashAlg with
        | .error err => .fail none err
        | .ok signedData =>
          CalculateBankData.phaseLoop pcrNumber hashAlg sel key fp rest
            (d.Extend (stringBytes p.Phase))
            (banks ++ [{ PCRs := [pcrNumber],
                         PKFP := hex.EncodeToString fp,
                         Sig := base64.EncodeToString signedData,
                         Pol := hex.EncodeToString
                           (specPolicyDigest (d.Extend (stringBytes p.Phase)).Hash sel) }]) := by
  rw [CalculateBankData.phaseLoop]
  cases hp : p.CalculateSignature
  · simp
  · simp only [Bool.not_true, Bool.false_eq_true, if_false, CalculatePolicy_ok]
    rcases hs : key.Sign (specPolicyDigest (d.Extend (stringBytes p.Phase)).Hash sel) hashAlg
      with err | signedData
    · rw [Sign_fail_of _ _ _ _ hs]; simp
    · rw [Sign_ok_of _ _ _ _ hs]; simp

theorem CalculateBankData.phaseLoop_ok_spec (pcrNumber : Int) (hashAlg : crypto.Hash)
    (sel : tpm2.TPMLPCRSelection) (key : RSAKey) (fp : List Nat)
    (phases : List types.PhaseInfo) :
    ∀ (d : Digest) (banks out : List types.BankData),
      CalculateBankData.phaseLoop pcrNumber hashAlg sel key fp phases d banks = .ok out →
      ∃ added, out = banks ++ added ∧
        added.map (fun b => b.Pol) = checkpointPolicies sel d phases ∧
        ∀ b ∈ added, b.PCRs = [pcrNumber] ∧ b.PKFP = hex.EncodeToString fp := by
  induction phases with
  | nil =>
    intro d banks out h
    rw [CalculateBankData.phaseLoop] at h
    injection h with h
    exact ⟨[], by rw [← h, List.append_nil], rfl, fun b hb => by cases hb⟩
  | cons p rest ih =>
    intro d banks out h
    rw [CalculateBankData.phaseLoop_cons] at h
    rw [checkpointPolicies_cons]
    cases hp : p.CalculateSignature
    · rw [hp] at h
      simp only [if_true] at h
      obtain ⟨added, h1, h2, h3⟩ := ih _ _ _ h
      exact ⟨added, h1, by simpa using h2, h3⟩
    · rw [hp] at h
      simp only [Bool.true_eq_false, if_false] at h
      rcases hs : key.Sign (specPolicyDigest (d.Extend (stringBytes p.Phase)).Hash sel) hashAlg
        with err | signedData
      · rw [hs] at h; cases h
      · rw [hs] at h
        obtain ⟨added, h1, h2, h3⟩ := ih _ _ _ h
        refine ⟨_ :: added, by rw [h1, List.append_assoc]; rfl, by simp [h2], ?_⟩
        intro b hb
        rcases List.mem_cons.mp hb with rfl | hb
        · exact ⟨rfl, rfl⟩
        · exact h3 b hb

theorem CalculateBankData.phaseLoop_total (pcrNumber : Int) (hashAlg : crypto.Hash)
    (sel : tpm2.TPMLPCRSelection) (key : RSAKey) (fp : List Nat)
    (hsign : ∀ digest, ∃ signedData, key.Sign digest hashAlg = .ok signedData)
    (phases : List types.PhaseInfo) :
    ∀ (d : Digest) (banks : List types.BankData),
      ∃ out, CalculateBankData.phaseLoop pcrNumber hashAlg sel key fp phases d banks =
        .ok out := by
  induction phases with
  | nil => intro d banks; exact ⟨banks, rfl⟩
  | cons p rest ih =>
    intro d banks
    rw [CalculateBankData.phaseLoop_cons]
    cases hp : p.CalculateSignature
    · simp only [if_true]; exact ih _ _
    · simp only [Bool.true_eq_false, if_false]
      obtain ⟨signedData, hs⟩ :=
        hsign (specPolicyDigest (d.Extend (stringBytes p.Phase)).Hash sel)
      rw [hs]
      exact ih _ _

theorem TPMAlgID_Hash_cases (a : tpm2.TPMAlgID) :
    (∃ hashAlg, tpm2.TPMAlgID.Hash a = .ok hashAlg) ∨
      ∃ err, tpm2.TPMAlgID.Hash a = .fail (some .SHA256) err := by
  unfold tpm2.TPMAlgID.Hash
  split_ifs
  · exact Or.inl ⟨_, rfl⟩
  · exact Or.inl ⟨_, rfl⟩
  · exact Or.inl ⟨_, rfl⟩
  · exact Or.inl ⟨_, rfl⟩
  · exact Or.inr ⟨_, rfl⟩

theorem CreateSelector_singleton (u : Nat) :
    (u < 24 ∧ ∃ mask, CreateSelector [(u : Int)] = .ok mask) ∨
      (24 ≤ u ∧ ∃ msg, CreateSelector [(u : Int)] = .fail none msg) := by
  by_cases hu : u < 24
  · obtain ⟨mask, h, _⟩ := CreateSelector_valid [(u : Int)] (fun n hn => by
      rw [List.mem_singleton] at hn; subst hn; omega)
    exact Or.inl ⟨hu, mask, h⟩
  · obtain ⟨msg, h⟩ := CreateSelector.loop_out_of_range [(u : Int)]
      (List.replicate sizeOfPCRSelect 0) (by simp [sizeOfPCRSelect])
      (fun n hn => by rw [List.mem_singleton] at hn; subst hn; omega)
      ⟨(u : Int), List.mem_singleton.mpr rfl, by omega⟩
    exact Or.inr ⟨by omega, msg, h⟩

theorem CalculateBankData_eq (env : Env) (pcrNumber : Int) (alg : tpm2.TPMAlgID)
    (sectionData : List (String × String)) (key : RSAKey) (hashAlg : crypto.Hash)
    (mask : List Nat) (halg : tpm2.TPMAlgID.Hash alg = .ok hashAlg)
    (hsel : CreateSelector [(env.UKIPCR : Int)] = .ok mask) :
    CalculateBankData env pcrNumber alg sectionData key =
      match CalculateBankData.sectionLoop env sectionData env.OrderedSections
          (NewDigest hashAlg) with
      | .error r => r
      | .ok d =>
        CalculateBankData.phaseLoop pcrNumber hashAlg
          { PCRSelections := [{ Hash := alg, PCRSelect := mask }] } key
          (sha256.Sum256 (x509.MarshalPKCS1PublicKey key.PublicRSAKey)) env.OrderedPhases d [] := by
  unfold CalculateBankData
  simp only [halg, hsel]

/-- Every outcome of `CalculateBankData`: an unsupported algorithm, an out-of-range
`UKIPCR`, or the section loop followed by the phase loop. -/
theorem CalculateBankData_cases (env : Env) (pcrNumber : Int) (alg : tpm2.TPMAlgID)
    (sectionData : List (String × String)) (key : RSAKey) :
    (∃ err, CalculateBankData env pcrNumber alg sectionData key = .fail none err) ∨
    ∃ hashAlg mask d, tpm2.TPMAlgID.Hash alg = .ok hashAlg ∧
      CreateSelector [(env.UKIPCR : Int)] = .ok mask ∧
      CalculateBankData.sectionLoop env sectionData env.OrderedSections (NewDigest hashAlg)
        = .ok d ∧
      CalculateBankData env pcrNumber alg sectionData key =
        CalculateBankData.phaseLoop pcrNumber hashAlg
          { PCRSelections := [{ Hash := alg, PCRSelect := mask }] } key
          (sha256.Sum256 (x509.MarshalPKCS1PublicKey key.PublicRSAKey)) env.OrderedPhases d [] := by
  rcases TPMAlgID_Hash_cases alg with ⟨hashAlg, halg⟩ | ⟨err, halg⟩
  · rcases CreateSelector_singleton env.UKIPCR with ⟨_, mask, hsel⟩ | ⟨_, msg, hsel⟩
    · rcases hloop : CalculateBankData.sectionLoop env sectionData env.OrderedSections
        (NewDigest hashAlg) with r | d
      · obtain ⟨_, _, e, _, _, hr⟩ := CalculateBankData.sectionLoop_error _ _ _ _ _ hloop
        left
        refine ⟨e, ?_⟩
        rw [CalculateBankData_eq env pcrNumber alg sectionData key hashAlg mask halg hsel, hloop, hr]
      · right
        refine ⟨hashAlg, mask, d, halg, hsel, hloop, ?_⟩
        rw [CalculateBankData_eq env pcrNumber alg sectionData key hashAlg mask halg hsel, hloop]
    · left
      refine ⟨"failed to create PCR selection: " ++ msg, ?_⟩
      unfold CalculateBankData
      simp only [halg, hsel]
  · left
    refine ⟨err, ?_⟩
    unfold CalculateBankData
    simp only [halg]

theorem CalculateBankData.sectionLoop_empty (env : Env) (names : List String) :
    ∀ d : Digest, CalculateBankData.sectionLoop env [] names d = .ok d := by
  induction names with
  | nil => intro d; rfl
  | cons sec rest ih =>
    intro d
    rw [CalculateBankData.sectionLoop]
    simp only [mapIndex_nil, ne_eq, not_true_eq_false, if_false]
    exact ih d

theorem policyHex_CalculatePolicy (pcrValue : List Nat) (sel : tpm2.TPMLPCRSelection) :
    policyHex (CalculatePolicy pcrValue sel) =
      some (hex.EncodeToString (specPolicyDigest pcrValue sel)) := by
  rw [CalculatePolicy_ok]; rfl

/-- The policy digests of a successful run are those of the phase walk over the accumulator
left by the section loop; the PCR number passed in plays no part in them. -/
theorem pols_CalculateBankData (env : Env) (pcrNumber : Int) (alg : tpm2.TPMAlgID)
    (sectionData : List (String × String)) (key : RSAKey) (hashAlg : crypto.Hash)
    (mask : List Nat) (d : Digest) (halg : tpm2.TPMAlgID.Hash alg = .ok hashAlg)
    (hsel : CreateSelector [(env.UKIPCR : Int)] = .ok mask)
    (hloop : CalculateBankData.sectionLoop env sectionData env.OrderedSections
      (NewDigest hashAlg) = .ok d)
    (hsign : ∀ digest, ∃ signedData, key.Sign digest hashAlg = .ok signedData) :
    pols (CalculateBankData env pcrNumber alg sectionData key) =
      some (checkpointPolicies { PCRSelections := [{ Hash := alg, PCRSelect := mask }] } d
        env.OrderedPhases) := by
  rw [CalculateBankData_eq env pcrNumber alg sectionData key hashAlg mask halg hsel, hloop]
  obtain ⟨out, hout⟩ := CalculateBankData.phaseLoop_total pcrNumber hashAlg
    { PCRSelections := [{ Hash := alg, PCRSelect := mask }] } key
    (sha256.Sum256 (x509.MarshalPKCS1PublicKey key.PublicRSAKey)) hsign env.OrderedPhases d []
  obtain ⟨added, h1, h2, _⟩ := CalculateBankData.phaseLoop_ok_spec _ _ _ _ _ _ _ _ _ hout
  simp only [hout, pols]
  rw [h1, List.nil_append, h2]

set_option maxRecDepth 1000000 in
/-- The golden vectors, computed on the embedding: empty section set, SHA-256, selector of
PCR 11, the four phases. -/
theorem golden_checkpointPolicies :
    checkpointPolicies pcr11Selection (NewDigest .SHA256) goldenPhases =
      knownPCR11PolicyHashes := by
  decide!

set_option maxRecDepth 1000000 in
/-- With the literal reading of the spec sentence on `extend` (raw bytes folded into the
state) the first golden vector of `pcr_test.go` is missed. -/
theorem golden_vectors_need_hashed_extend :
    policyHex (CalculatePolicy
        ((NewDigest .SHA256).ExtendRaw (stringBytes "enter-initrd")).Hash pcr11Selection) =
      some "f11bd82973fd0c57e8422faf651332f95548012e9644b5e72b58c3c4c7c881dc" ∧
    policyHex (CalculatePolicy
        ((NewDigest .SHA256).Extend (stringBytes "enter-initrd")).Hash pcr11Selection) =
      some "7c8486f61cc1d88a28d6ab87850bee07c467ce6311340219e43a7a6e6521e543" := by
  decide!

theorem fakeKey_signs (hashAlg : crypto.Hash) :
    ∀ digest, ∃ signedData, fakeKey.Sign digest hashAlg = .ok signedData :=
  fun digest => ⟨digest, rfl⟩

/-! ## The claims on `CalculateBankData` -/

/-- C1 (the code at the failing input). `CalculateBankData` called with `pcrNumber = 13` on
the empty section set, SHA-256 and the four golden phases succeeds, labels every entry with
PCR 13, and returns exactly the four policy digests known for PCR 11, the same as the call
with `pcrNumber = 11`: the selector is built from `constants.UKIPCR`, not from `pcrNumber`. -/
theorem pcr13_returns_pcr11_policies :
    pols (CalculateBankData goldenEnv 13 tpm2.TPMAlgSHA256 [] fakeKey) =
      some knownPCR11PolicyHashes ∧
    pols (CalculateBankData goldenEnv 11 tpm2.TPMAlgSHA256 [] fakeKey) =
      some knownPCR11PolicyHashes ∧
    ∃ banks, CalculateBankData goldenEnv 13 tpm2.TPMAlgSHA256 [] fakeKey = .ok banks ∧
      banks.length = 4 ∧ ∀ b ∈ banks, b.PCRs = [13] := by
  have h13 : pols (CalculateBankData goldenEnv 13 tpm2.TPMAlgSHA256 [] fakeKey) =
      some (checkpointPolicies pcr11Selection (NewDigest .SHA256) goldenPhases) :=
    pols_CalculateBankData goldenEnv 13 tpm2.TPMAlgSHA256 [] fakeKey .SHA256
      [0, 8, 0] (NewDigest .SHA256) (by decide) (by decide)
      (CalculateBankData.sectionLoop_empty _ _ _) (fakeKey_signs _)
  have h11 : pols (CalculateBankData goldenEnv 11 tpm2.TPMAlgSHA256 [] fakeKey) =
      some (checkpointPolicies pcr11Selection (NewDigest .SHA256) goldenPhases) :=
    pols_CalculateBankData goldenEnv 11 tpm2.TPMAlgSHA256 [] fakeKey .SHA256
      [0, 8, 0] (NewDigest .SHA256) (by decide) (by decide)
      (CalculateBankData.sectionLoop_empty _ _ _) (fakeKey_signs _)
  rw [golden_checkpointPolicies] at h13 h11
  refine ⟨h13, h11, ?_⟩
  rcases hres : CalculateBankData goldenEnv 13 tpm2.TPMAlgSHA256 [] fakeKey with banks | _ | _
  · rw [hres] at h13
    simp only [pols, Option.some.injEq] at h13
    refine ⟨banks, rfl, ?_, ?_⟩
    · have := congrArg List.length h13
      simpa [knownPCR11PolicyHashes] using this
    · rcases CalculateBankData_cases goldenEnv 13 tpm2.TPMAlgSHA256 [] fakeKey with
        ⟨err, he⟩ | ⟨hashAlg, mask, d, _, _, _, he⟩
      · rw [hres] at he; cases he
      · rw [hres] at he
        obtain ⟨added, h1, _, h3⟩ :=
          CalculateBankData.phaseLoop_ok_spec _ _ _ _ _ _ _ _ _ he.symm
        rw [List.nil_append] at h1
        intro b hb
        exact (h3 b (h1 ▸ hb)).1
  · rw [hres] at h13; cases h13
  · rw [hres] at h13; cases h13

set_option maxRecDepth 1000000 in
theorem golden_incremental :
    ([["enter-initrd"], ["enter-initrd", "leave-initrd"],
      ["enter-initrd", "leave-initrd", "sysinit"],
      ["enter-initrd", "leave-initrd", "sysinit", "ready"]].map fun labels =>
        policyHex (CalculatePolicy (extendLabels (NewDigest .SHA256) labels).Hash
          pcr11Selection)) = knownPCR11PolicyHashes.map some := by
  decide!

/-- C5. With an empty section set, SHA-256, PCR 11 and the phases enter-initrd, leave-initrd,
sysinit, ready, all checkpoints, `CalculateBankData` succeeds for every key whose signing
operation succeeds, and the four policy digests are the golden hex values of `pcr_test.go`;
extending a fresh SHA-256 digest with each label in turn and calling `CalculatePolicy` with
the selector `CreateSelector` returns for PCR 11 gives the same four values. -/
theorem known_vector_regression (env : Env) (key : RSAKey) (hpcr : env.UKIPCR = 11)
    (hphases : env.OrderedPhases = goldenPhases)
    (hsign : ∀ digest, ∃ signedData, key.Sign digest .SHA256 = .ok signedData) :
    pols (CalculateBankData env 11 tpm2.TPMAlgSHA256 [] key) =
      some ["7c8486f61cc1d88a28d6ab87850bee07c467ce6311340219e43a7a6e6521e543",
            "7474e6080ddc5355c6087db4272c7d8a6871a7c83a54694369561253f08fd3f1",
            "8fac790c125cc6c82b372714c8ecf83784523c05c5b78b37b1aae05521b7ec3e",
            "53f5e6ee03093e2fb1ea9d1351952a33ce381ae93bef210abb764941be8d8ec6"] ∧
    CreateSelector [11] = .ok [0, 8, 0] ∧
    ([["enter-initrd"], ["enter-initrd", "leave-initrd"],
      ["enter-initrd", "leave-initrd", "sysinit"],
      ["enter-initrd", "leave-initrd", "sysinit", "ready"]].map fun labels =>
        policyHex (CalculatePolicy (extendLabels (NewDigest .SHA256) labels).Hash
          { PCRSelections := [{ Hash := tpm2.TPMAlgSHA256, PCRSelect := [0, 8, 0] }] })) =
      [some "7c8486f61cc1d88a28d6ab87850bee07c467ce6311340219e43a7a6e6521e543",
       some "7474e6080ddc5355c6087db4272c7d8a6871a7c83a54694369561253f08fd3f1",
       some "8fac790c125cc6c82b372714c8ecf83784523c05c5b78b37b1aae05521b7ec3e",
       some "53f5e6ee03093e2fb1ea9d1351952a33ce381ae93bef210abb764941be8d8ec6"] := by
  refine ⟨?_, by decide, golden_incremental⟩
  have hsel : CreateSelector [(env.UKIPCR : Int)] = .ok [0, 8, 0] := by rw [hpcr]; decide
  have h := pols_CalculateBankData env 11 tpm2.TPMAlgSHA256 [] key .SHA256 [0, 8, 0]
    (NewDigest .SHA256) (by decide) hsel (CalculateBankData.sectionLoop_empty _ _ _) hsign
  rw [hphases] at h
  rw [h]
  exact congrArg some golden_checkpointPolicies

/-- C5 on the environment `goldenEnv` and the stand-in key. -/
theorem known_vector_regression_witness :
    goldenEnv.UKIPCR = 11 ∧ goldenEnv.OrderedPhases = goldenPhases ∧
    (∀ digest, ∃ signedData, fakeKey.Sign digest .SHA256 = .ok signedData) ∧
    pols (CalculateBankData goldenEnv 11 tpm2.TPMAlgSHA256 [] fakeKey) =
      some ["7c8486f61cc1d88a28d6ab87850bee07c467ce6311340219e43a7a6e6521e543",
            "7474e6080ddc5355c6087db4272c7d8a6871a7c83a54694369561253f08fd3f1",
            "8fac790c125cc6c82b372714c8ecf83784523c05c5b78b37b1aae05521b7ec3e",
            "53f5e6ee03093e2fb1ea9d1351952a33ce381ae93bef210abb764941be8d8ec6"] :=
  ⟨rfl, rfl, fakeKey_signs _,
    (known_vector_regression goldenEnv fakeKey rfl rfl (fakeKey_signs _)).1⟩

/-- C6. When the file of every present section can be read, the accumulator that
`CalculateBankData` holds before the first phase is the left fold, from the all-zero state and
over `constants.OrderedSections()` in that order, that extends the state with the section
name and one NUL byte and then with the section content for each section present in the map,
and leaves it untouched for an absent section. -/
theorem section_measurement (env : Env) (pcrNumber : Int) (alg : tpm2.TPMAlgID)
    (sectionData : List (String × String)) (key : RSAKey) (hashAlg : crypto.Hash)
    (mask : List Nat) (content : String → List Nat)
    (halg : tpm2.TPMAlgID.Hash alg = .ok hashAlg)
    (hsel : CreateSelector [(env.UKIPCR : Int)] = .ok mask)
    (hread : ∀ sec ∈ env.OrderedSections, mapIndex sectionData sec ≠ "" →
      env.ReadFile (mapIndex sectionData sec) = .ok (content sec)) :
    CalculateBankData.sectionLoop env sectionData env.OrderedSections (NewDigest hashAlg) =
      .ok (env.OrderedSections.foldl
        (fun acc sec =>
          if mapIndex sectionData sec ≠ "" then
            (acc.Extend (stringBytes sec ++ [0x00])).Extend (content sec)
          else acc)
        (NewDigest hashAlg)) ∧
    CalculateBankData env pcrNumber alg sectionData key =
      CalculateBankData.phaseLoop pcrNumber hashAlg
        { PCRSelections := [{ Hash := alg, PCRSelect := mask }] } key
        (sha256.Sum256 (x509.MarshalPKCS1PublicKey key.PublicRSAKey)) env.OrderedPhases
        (specMeasureSections hashAlg env.OrderedSections sectionData content) [] := by
  have hloop := CalculateBankData.sectionLoop_spec env sectionData content env.OrderedSections
    hread (NewDigest hashAlg)
  refine ⟨hloop, ?_⟩
  rw [CalculateBankData_eq env pcrNumber alg sectionData key hashAlg mask halg hsel, hloop]
  rfl

set_option maxRecDepth 1000000 in
/-- C6 on `goldenEnv` with the sections `.uname` and `.cmdline` given in that order in the
map: `.cmdline` is measured first, as the canonical order has it. -/
theorem section_measurement_witness :
    tpm2.TPMAlgID.Hash tpm2.TPMAlgSHA256 = .ok .SHA256 ∧
    CreateSelector [(goldenEnv.UKIPCR : Int)] = .ok [0, 8, 0] ∧
    (∀ sec ∈ goldenEnv.OrderedSections,
      mapIndex [(".uname", "/tmp/uname"), (".cmdline", "/tmp/cmdline")] sec ≠ "" →
      goldenEnv.ReadFile (mapIndex [(".uname", "/tmp/uname"), (".cmdline", "/tmp/cmdline")] sec)
        = .ok (goldenContent sec)) ∧
    CalculateBankData.sectionLoop goldenEnv
        [(".uname", "/tmp/uname"), (".cmdline", "/tmp/cmdline")] goldenEnv.OrderedSections
        (NewDigest .SHA256) =
      .ok ((((NewDigest .SHA256).Extend (stringBytes ".cmdline" ++ [0])).Extend
        (stringBytes "root=LABEL=BOOT")).Extend (stringBytes ".uname" ++ [0]) |>.Extend
        (stringBytes "6.5.0")) :=
  ⟨by decide, by decide, by decide,
    (section_measurement goldenEnv 11 tpm2.TPMAlgSHA256
      [(".uname", "/tmp/uname"), (".cmdline", "/tmp/cmdline")] fakeKey .SHA256 [0, 8, 0]
      goldenContent (by decide) (by decide) (by decide)).1.trans rfl⟩

/-- C7. Whenever `CalculateBankData` succeeds, the returned list has one entry per checkpoint
phase, in phase order: for each prefix of `types.OrderedPhases()` that ends in a checkpoint,
taken by increasing length, the entry carries the hex policy digest `CalculatePolicy` returns
for the accumulator left by the section loop and extended with the label bytes of every
phase of that prefix, checkpoint or not. -/
theorem phase_walk (env : Env) (pcrNumber : Int) (alg : tpm2.TPMAlgID)
    (sectionData : List (String × String)) (key : RSAKey) (banks : List types.BankData)
    (h : CalculateBankData env pcrNumber alg sectionData key = .ok banks) :
    ∃ hashAlg mask d, tpm2.TPMAlgID.Hash alg = .ok hashAlg ∧
      CreateSelector [(env.UKIPCR : Int)] = .ok mask ∧
      CalculateBankData.sectionLoop env sectionData env.OrderedSections (NewDigest hashAlg)
        = .ok d ∧
      banks.length = (env.OrderedPhases.filter fun p => p.CalculateSignature).length ∧
      banks.map (fun b => some b.Pol) =
        (env.OrderedPhases.inits.filter endsInCheckpoint).map fun pre =>
          policyHex (CalculatePolicy
            (extendLabels d (pre.map fun p => p.Phase)).Hash
            { PCRSelections := [{ Hash := alg, PCRSelect := mask }] }) := by
  rcases CalculateBankData_cases env pcrNumber alg sectionData key with
    ⟨err, he⟩ | ⟨hashAlg, mask, d, halg, hsel, hloop, he⟩
  · rw [h] at he; cases he
  · rw [h] at he
    obtain ⟨added, h1, h2, _⟩ := CalculateBankData.phaseLoop_ok_spec _ _ _ _ _ _ _ _ _ he.symm
    rw [List.nil_append] at h1
    subst h1
    refine ⟨hashAlg, mask, d, halg, hsel, hloop, ?_, ?_⟩
    · rw [← checkpointPolicies_length { PCRSelections := [{ Hash := alg, PCRSelect := mask }] }
        env.OrderedPhases d, ← h2, List.length_map]
    · have h3 := congrArg (List.map some) h2
      rw [List.map_map] at h3
      rw [show (fun b : types.BankData => some b.Pol) = some ∘ (fun b => b.Pol) from rfl, h3]
      unfold checkpointPolicies
      rw [List.map_map]
      apply List.map_congr_left
      intro pre _
      simp only [Function.comp, policyHex_CalculatePolicy]

set_option maxRecDepth 1000000 in
/-- C7 on `mixedEnv`, whose second phase is not a checkpoint: two entries, the second one
computed after the labels of all three phases. -/
theorem phase_walk_witness :
    CalculateBankData mixedEnv 11 tpm2.TPMAlgSHA256 [] fakeKey = .ok mixedBanks ∧
    mixedEnv.OrderedPhases.inits.filter endsInCheckpoint =
      [[⟨"enter-initrd", true⟩],
       [⟨"enter-initrd", true⟩, ⟨"leave-initrd", false⟩, ⟨"sysinit", true⟩]] ∧
    ∃ hashAlg mask d, tpm2.TPMAlgID.Hash tpm2.TPMAlgSHA256 = .ok hashAlg ∧
      CreateSelector [(mixedEnv.UKIPCR : Int)] = .ok mask ∧
      CalculateBankData.sectionLoop mixedEnv [] mixedEnv.OrderedSections (NewDigest hashAlg)
        = .ok d ∧
      mixedBanks.length = (mixedEnv.OrderedPhases.filter fun p => p.CalculateSignature).length ∧
      mixedBanks.map (fun b => some b.Pol) =
        (mixedEnv.OrderedPhases.inits.filter endsInCheckpoint).map fun pre =>
          policyHex (CalculatePolicy
            (extendLabels d (pre.map fun p => p.Phase)).Hash
            { PCRSelections := [{ Hash := tpm2.TPMAlgSHA256, PCRSelect := mask }] }) :=
  have hrun : CalculateBankData mixedEnv 11 tpm2.TPMAlgSHA256 [] fakeKey = .ok mixedBanks := by
    decide!
  ⟨hrun, by decide, phase_walk mixedEnv 11 tpm2.TPMAlgSHA256 [] fakeKey mixedBanks hrun⟩

/-! ## Entry fields -/

theorem CalculateBankDataForFile_ok (env : Env) (pcrNumber : Int) (alg : tpm2.TPMAlgID)
    (file : String) (key : RSAKey) (banks : List types.BankData)
    (h : CalculateBankDataForFile env pcrNumber alg file key = .ok banks) :
    ∃ b, banks = [b] ∧ b.PCRs = [pcrNumber] ∧
      b.PKFP = hex.EncodeToString
        (sha256.Sum256 (x509.MarshalPKCS1PublicKey key.PublicRSAKey)) := by
  unfold CalculateBankDataForFile at h
  rcases TPMAlgID_Hash_cases alg with ⟨hashAlg, halg⟩ | ⟨err, halg⟩
  · rcases CreateSelector_singleton env.UKIPCR with ⟨_, mask, hsel⟩ | ⟨_, msg, hsel⟩
    · simp only [halg, hsel, CalculatePolicy_ok] at h
      rcases hr : env.ReadFile file with e | data
      · rw [hr] at h; cases h
      · rw [hr] at h
        simp only at h
        rcases hs : key.Sign (specPolicyDigest ((NewDigest hashAlg).Extend data).Hash
            { PCRSelections := [{ Hash := alg, PCRSelect := mask }] }) hashAlg
          with e | signedData
        · rw [Sign_fail_of _ _ _ _ hs] at h; cases h
        · rw [Sign_ok_of _ _ _ _ hs] at h
          simp only [List.nil_append, GoResult.ok.injEq] at h
          exact ⟨_, h.symm, rfl, rfl⟩
    · simp only [halg, hsel] at h; cases h
  · simp only [halg] at h; cases h

/-- C8. Every entry returned by `CalculateBankData`, and the single entry returned by
`CalculateBankDataForFile`, has `PCRs = [pcrNumber]` and a `PKFP` that is the hex encoding of
SHA-256 over the PKCS#1 DER encoding of the key: the same 64 characters in every entry. -/
theorem bank_entry_fields (env : Env) (pcrNumber : Int) (alg : tpm2.TPMAlgID)
    (sectionData : List (String × String)) (file : String) (key : RSAKey)
    (banks : List types.BankData)
    (h : CalculateBankData env pcrNumber alg sectionData key = .ok banks ∨
      CalculateBankDataForFile env pcrNumber alg file key = .ok banks) :
    (∀ b ∈ banks, b.PCRs = [pcrNumber] ∧
      b.PKFP = hex.EncodeToString
        (sha256.Sum256 (x509.MarshalPKCS1PublicKey key.PublicRSAKey)) ∧
      b.PKFP.length = 64) ∧
    (CalculateBankDataForFile env pcrNumber alg file key = .ok banks → banks.length = 1) := by
  have hlen : (hex.EncodeToString
      (sha256.Sum256 (x509.MarshalPKCS1PublicKey key.PublicRSAKey))).length = 64 := by
    rw [hex_EncodeToString_length, sha256_Sum256_length]
  constructor
  · intro b hb
    rcases h with h | h
    · rcases CalculateBankData_cases env pcrNumber alg sectionData key with
        ⟨err, he⟩ | ⟨hashAlg, mask, d, _, _, _, he⟩
      · rw [h] at he; cases he
      · rw [h] at he
        obtain ⟨added, h1, _, h3⟩ :=
          CalculateBankData.phaseLoop_ok_spec _ _ _ _ _ _ _ _ _ he.symm
        rw [List.nil_append] at h1
        obtain ⟨e1, e2⟩ := h3 b (h1 ▸ hb)
        exact ⟨e1, e2, e2 ▸ hlen⟩
    · obtain ⟨b0, hb0, e1, e2⟩ := CalculateBankDataForFile_ok _ _ _ _ _ _ h
      rw [hb0, List.mem_singleton] at hb
      subst hb
      exact ⟨e1, e2, e2 ▸ hlen⟩
  · intro h2
    obtain ⟨b0, hb0, _⟩ := CalculateBankDataForFile_ok _ _ _ _ _ _ h2
    rw [hb0]; rfl

set_option maxRecDepth 1000000 in
/-- C8 on the file `/tmp/cmdline` of `goldenEnv`, PCR number 7 and the SHA-384 bank. -/
theorem bank_entry_fields_witness :
    CalculateBankDataForFile goldenEnv 7 tpm2.TPMAlgSHA384 "/tmp/cmdline" fakeKey =
      .ok cmdlineFileBanks ∧
    hex.EncodeToString (sha256.Sum256 (x509.MarshalPKCS1PublicKey fakeKey.PublicRSAKey)) =
      "bfb32bfec1972879359a37298c4a16c570a280ba90cc30d512ba69de6dae9c99" ∧
    (∀ b ∈ cmdlineFileBanks, b.PCRs = [7] ∧
      b.PKFP = hex.EncodeToString
        (sha256.Sum256 (x509.MarshalPKCS1PublicKey fakeKey.PublicRSAKey)) ∧
      b.PKFP.length = 64) ∧
    (CalculateBankDataForFile goldenEnv 7 tpm2.TPMAlgSHA384 "/tmp/cmdline" fakeKey =
      .ok cmdlineFileBanks → cmdlineFileBanks.length = 1) :=
  have hrun : CalculateBankDataForFile goldenEnv 7 tpm2.TPMAlgSHA384 "/tmp/cmdline" fakeKey =
      .ok cmdlineFileBanks := by
    decide!
  ⟨hrun, by decide!,
    bank_entry_fields goldenEnv 7 tpm2.TPMAlgSHA384 [] "/tmp/cmdline" fakeKey cmdlineFileBanks
      (Or.inr hrun)⟩

/-! ## Failure and determinism -/

/-- C10. The result of `CalculateBankData` depends on the section map only through the value
it associates with each name of `constants.OrderedSections()`: two maps that agree on these
lookups, whatever the order of their pairs, give the same result for the same PCR number,
algorithm and key. Running twice on the same input is the case of equal maps. -/
theorem determinism (env : Env) (pcrNumber : Int) (alg : tpm2.TPMAlgID)
    (m1 m2 : List (String × String)) (key : RSAKey)
    (h : ∀ sec ∈ env.OrderedSections, mapIndex m1 sec = mapIndex m2 sec) :
    CalculateBankData env pcrNumber alg m1 key = CalculateBankData env pcrNumber alg m2 key := by
  rcases TPMAlgID_Hash_cases alg with ⟨hashAlg, halg⟩ | ⟨err, halg⟩
  · rcases CreateSelector_singleton env.UKIPCR with ⟨_, mask, hsel⟩ | ⟨_, msg, hsel⟩
    · rw [CalculateBankData_eq env pcrNumber alg m1 key hashAlg mask halg hsel,
        CalculateBankData_eq env pcrNumber alg m2 key hashAlg mask halg hsel,
        CalculateBankData.sectionLoop_congr env m1 m2 env.OrderedSections h]
    · unfold CalculateBankData
      simp only [halg, hsel]
  · unfold CalculateBankData
    simp only [halg]

/-- C10 on `goldenEnv` and two maps holding the same two sections in opposite orders. -/
theorem determinism_witness :
    (∀ sec ∈ goldenEnv.OrderedSections,
      mapIndex [(".uname", "/tmp/uname"), (".cmdline", "/tmp/cmdline")] sec =
        mapIndex [(".cmdline", "/tmp/cmdline"), (".uname", "/tmp/uname")] sec) ∧
    CalculateBankData goldenEnv 11 tpm2.TPMAlgSHA256
        [(".uname", "/tmp/uname"), (".cmdline", "/tmp/cmdline")] fakeKey =
      CalculateBankData goldenEnv 11 tpm2.TPMAlgSHA256
        [(".cmdline", "/tmp/cmdline"), (".uname", "/tmp/uname")] fakeKey :=
  ⟨by decide, determinism goldenEnv 11 tpm2.TPMAlgSHA256 _ _ fakeKey (by decide)⟩

/-! ## The digest accumulator and the index check of `CreateSelector` -/

theorem CreateSelector.loop_nonneg (pcrs : List Int) :
    ∀ mask : List Nat, mask.length = 3 → (∀ n ∈ pcrs, 0 ≤ n) →
      (∃ out, CreateSelector.loop pcrs mask = .ok out ∧ out.length = 3) ∨
        ∃ msg, CreateSelector.loop pcrs mask = .fail none msg := by
  induction pcrs with
  | nil => intro mask hlen _; exact Or.inl ⟨mask, rfl, hlen⟩
  | cons k rest ih =>
    intro mask hlen hnonneg
    by_cases hk : 24 ≤ k
    · right
      exact CreateSelector.loop_out_of_range (k :: rest) mask hlen hnonneg
        ⟨k, List.mem_cons_self _ _, hk⟩
    · obtain ⟨m, rfl⟩ := Int.eq_ofNat_of_zero_le (hnonneg k (List.mem_cons_self _ _))
      rw [CreateSelector.loop_cons_valid m rest mask (by omega) hlen]
      exact ih _ (by rw [List.length_set]; exact hlen)
        (fun n hn => hnonneg n (List.mem_cons_of_mem _ hn))

/-- C12 (the code at the failing input). The index `-1` passes the range check of
`CreateSelector`, its byte index `-1 >> 3` is `-1`, and the write `mask[-1]` panics; a
negative index panics also when an index of 24 or more follows it. On lists without a
negative index the check is sufficient: the result is a 3-byte mask or an error. -/
theorem CreateSelector_negative_index_panics :
    ((-1 : Int) < 24 ∧ ¬ ((-1 : Int) ≥ 8 * sizeOfPCRSelect) ∧ (-1 : Int) >>> 3 = -1) ∧
    CreateSelector [-1] = .panic "runtime error: index out of range [-1]" ∧
    CreateSelector [5, -9, 24] = .panic "runtime error: index out of range [-2]" ∧
    ∀ pcrs : List Int, (∀ n ∈ pcrs, 0 ≤ n) →
      (∃ mask, CreateSelector pcrs = .ok mask ∧ mask.length = 3) ∨
        ∃ msg, CreateSelector pcrs = .fail none msg :=
  ⟨by decide, by decide, by decide, fun pcrs h =>
    CreateSelector.loop_nonneg pcrs _ (by simp [sizeOfPCRSelect]) h⟩

set_option maxRecDepth 1000000 in
theorem Extend_Hello_sha256 :
    hex.EncodeToString ((NewDigest .SHA256).Extend (stringBytes "Hello")).Hash =
      "5d34a81817bcb7f1856a6e0484572077846d73e9ac5c82bac8d1ee049e2db43e" ∧
    hex.EncodeToString (crypto.Hash.Sum .SHA256 ((NewDigest .SHA256).Hash ++ stringBytes "Hello")) =
      "baae9a93d843c3823643cea3b4e0a2a5de07a38f737030f8f7829f6a0cde5dfa" ∧
    hex.EncodeToString (List.replicate 32 0) =
      "0000000000000000000000000000000000000000000000000000000000000000" := by
  decide!

/-- C11 as stated fails: on a fresh SHA-256 digest and the bytes of "Hello", the state after
`Extend` is not the hash of the previous state followed by these bytes. The state after
`Extend` is the value `pcr_test.go` (line 268) names as precalculated for this input. -/
theorem Extend_is_not_hash_of_raw_bytes :
    ((NewDigest .SHA256).Extend (stringBytes "Hello")).Hash ≠
        crypto.Hash.Sum .SHA256 ((NewDigest .SHA256).Hash ++ stringBytes "Hello") ∧
    hex.EncodeToString ((NewDigest .SHA256).Extend (stringBytes "Hello")).Hash =
      "5d34a81817bcb7f1856a6e0484572077846d73e9ac5c82bac8d1ee049e2db43e" := by
  refine ⟨fun h => ?_, Extend_Hello_sha256.1⟩
  have h1 := Extend_Hello_sha256.1
  have h2 := Extend_Hello_sha256.2.1
  rw [h, h2] at h1
  revert h1
  decide

/-- C11, amended. For each of SHA-1, SHA-256, SHA-384 and SHA-512 (digest sizes 20, 32, 48
and 64), a digest created by `NewDigest` reads as that many zero bytes; `Hash` returns the
state as it is; after `Extend(b)` the state is the hash of the previous state followed by
the hash of `b`, of the size of the algorithm again, for every byte string `b`. A fresh
SHA-256 digest is 32 zero bytes, and after `Extend("Hello")` it is not. -/
theorem Digest_accumulator (alg : crypto.Hash) (d : Digest) (b : List Nat) :
    (crypto.Hash.SHA1.Size = 20 ∧ crypto.Hash.SHA256.Size = 32 ∧
      crypto.Hash.SHA384.Size = 48 ∧ crypto.Hash.SHA512.Size = 64) ∧
    (NewDigest alg).Hash = List.replicate alg.Size 0 ∧
    ((NewDigest alg).Hash.length = alg.Size ∧ (NewDigest alg).alg = alg) ∧
    d.Hash = d.hash ∧
    (d.Extend b).Hash = d.alg.Sum (d.Hash ++ d.alg.Sum b) ∧
    ((d.Extend b).Hash.length = d.alg.Size ∧ (d.Extend b).alg = d.alg) ∧
    (NewDigest .SHA256).Hash = List.replicate 32 0 ∧
    ((NewDigest .SHA256).Extend (stringBytes "Hello")).Hash ≠ List.replicate 32 0 := by
  refine ⟨⟨rfl, rfl, rfl, rfl⟩, rfl, ⟨?_, rfl⟩, rfl, rfl, ⟨?_, rfl⟩, rfl, fun h => ?_⟩
  · simp [NewDigest, Digest.Hash]
  · exact crypto_Hash_Sum_length _ _
  · have h1 := Extend_Hello_sha256.1
    rw [h, Extend_Hello_sha256.2.2] at h1
    revert h1
    decide

end GoUkify
